import Mathlib

/-!
Suspicious link checker: the URL risk scoring engine

A shallow embedding of `background.js`: the helper predicates (`isIP`,
`isShortener`, `hasUnicode`), the edit distance `dist`, the brand look-alike
test `looksLike` and the scoring function `scoreFindings`.

A JavaScript string is a sequence of UTF-16 code units; it is modelled as a
list of natural numbers, so that `.length`, indexing and `===` are the list
operations.  String literals of the source are written `js "..."`.
-/

set_option autoImplicit false

namespace LinkChecker

/-! ## JavaScript strings -/

/-- A JavaScript string: its sequence of UTF-16 code units. -/
abbrev JsString := List Nat

/-- UTF-16 code units of one Unicode scalar value. -/
def utf16 (c : Char) : List Nat :=
  if c.toNat < 0x10000 then [c.toNat]
  else [0xD800 + (c.toNat - 0x10000) / 0x400, 0xDC00 + (c.toNat - 0x10000) % 0x400]

/-- The JavaScript string denoted by a source literal. -/
def js (s : String) : JsString := s.toList.flatMap utf16

/-- `String.prototype.toLowerCase` on the ASCII range: the code units of
`A`..`Z` are mapped to `a`..`z` and every other code unit is kept.  Host names
serialised by the URL parser are ASCII, where this is the whole of the
platform function.  Outside ASCII the platform function folds more (U+00C9 to
U+00E9, U+212A to `k`), so what is stated of arbitrary candidates is stated of
`looksLikeWith`, which takes the platform function as a parameter. -/
def toLowerCase (s : JsString) : JsString :=
  s.map fun c => if 65 ≤ c ∧ c ≤ 90 then c + 32 else c

/-- `String.prototype.split` with a separator of one code unit. -/
def split (sep : Nat) : JsString → List JsString
  | [] => [[]]
  | c :: cs =>
    if c = sep then [] :: split sep cs
    else match split sep cs with
      | [] => [[c]]
      | h :: t => (c :: h) :: t

/-- `Array.prototype.join` of strings with a separator string. -/
def join (sep : JsString) : List JsString → JsString
  | [] => []
  | [s] => s
  | s :: t => s ++ sep ++ join sep t

/-- `Array.prototype.slice(-k)`: the last `k` elements, all of them when there
are fewer. -/
def sliceLast {α : Type} (k : Nat) (xs : List α) : List α :=
  xs.drop (xs.length - k)

/-- `String.prototype.startsWith`. -/
def startsWith (s pre : JsString) : Bool := pre.isPrefixOf s

/-! ## The platform URL object -/

/-- The fields of a WHATWG `URL` object read by the scoring function.
`port` is the empty string when the URL has no explicit port (or the port is
the default of a special scheme); `searchParams` is the list of name/value
pairs of the query, in order. -/
structure URL where
  protocol : JsString
  hostname : JsString
  port : JsString
  pathname : JsString
  searchParams : List (JsString × JsString)
deriving DecidableEq, Repr

/-- One hexadecimal digit, upper case, as a code unit. -/
def hexDigit (n : Nat) : Nat := if n < 10 then 48 + n else 55 + n

/-- Replace a well-formed surrogate pair by its scalar value and a lone
surrogate by U+FFFD: the code points of a JavaScript string. -/
def codePoints : JsString → List Nat
  | [] => []
  | [c] => if 0xD800 ≤ c ∧ c ≤ 0xDFFF then [0xFFFD] else [c]
  | c :: d :: r =>
    if 0xD800 ≤ c ∧ c ≤ 0xDBFF ∧ 0xDC00 ≤ d ∧ d ≤ 0xDFFF then
      (0x10000 + (c - 0xD800) * 0x400 + (d - 0xDC00)) :: codePoints r
    else if 0xD800 ≤ c ∧ c ≤ 0xDFFF then 0xFFFD :: codePoints (d :: r)
    else c :: codePoints (d :: r)

/-- UTF-8 bytes of a scalar value. -/
def utf8 (n : Nat) : List Nat :=
  if n < 0x80 then [n]
  else if n < 0x800 then [0xC0 + n / 0x40, 0x80 + n % 0x40]
  else if n < 0x10000 then [0xE0 + n / 0x1000, 0x80 + n / 0x40 % 0x40, 0x80 + n % 0x40]
  else [0xF0 + n / 0x40000, 0x80 + n / 0x1000 % 0x40, 0x80 + n / 0x40 % 0x40, 0x80 + n % 0x40]

/-- The `application/x-www-form-urlencoded` byte serialiser on one byte:
alphanumerics and `*-._` are kept, a space becomes `+`, any other byte is
percent-encoded. -/
def urlencodeByte (b : Nat) : JsString :=
  if b = 0x20 then [0x2B]
  else if b = 0x2A ∨ b = 0x2D ∨ b = 0x2E ∨ b = 0x5F ∨ (0x30 ≤ b ∧ b ≤ 0x39)
      ∨ (0x41 ≤ b ∧ b ≤ 0x5A) ∨ (0x61 ≤ b ∧ b ≤ 0x7A) then [b]
  else [0x25, hexDigit (b / 16), hexDigit (b % 16)]

/-- Serialisation of one name or value of a query. -/
def urlencode (s : JsString) : JsString :=
  ((codePoints s).flatMap utf8).flatMap urlencodeByte

/-- `URLSearchParams.prototype.toString`: the pairs as `name=value`, joined
by `&`. -/
def URL.searchParamsToString (u : URL) : JsString :=
  join [0x26] (u.searchParams.map fun p => urlencode p.1 ++ [0x3D] ++ urlencode p.2)

/-- `[...u.searchParams.keys()]`. -/
def URL.searchParamsKeys (u : URL) : List JsString :=
  u.searchParams.map Prod.fst

/-! ## Heuristic weights -/

/-- The detectors of the scoring function, in evaluation order. -/
inductive Detector where
  | NOT_HTTPS | IP_HOST | PUNYCODE | SHORTENER | MANY_SUBDOMAINS
  | UNUSUAL_PORT | LONG_PATH | MANY_PARAMS | LONG_QUERY | LOOKS_LIKE_BRAND
deriving DecidableEq, Repr

/-- The table `WEIGHTS`. -/
def WEIGHTS : Detector → Int
  | .NOT_HTTPS => 40
  | .IP_HOST => 45
  | .PUNYCODE => 40
  | .SHORTENER => 20
  | .MANY_SUBDOMAINS => 15
  | .UNUSUAL_PORT => 15
  | .LONG_PATH => 10
  | .MANY_PARAMS => 10
  | .LONG_QUERY => 8
  | .LOOKS_LIKE_BRAND => 60

/-- The constant `RISK_THRESHOLDS.HIGH`. -/
def RISK_THRESHOLDS_HIGH : Int := 75

/-- The constant `RISK_THRESHOLDS.MEDIUM`. -/
def RISK_THRESHOLDS_MEDIUM : Int := 40

/-! ## Helper functions -/

/-- The function `toURL`: the URL constructor of the platform, given as
`newURL` (an error stands for the exception it throws), with the exception
turned into `null`. -/
def toURL (newURL : JsString → Except JsString URL) (u : JsString) : Option URL :=
  match newURL u with
  | .ok v => some v
  | .error _ => none

/-- A regular expression matcher: the list of the remainders of the input
after each way of matching a prefix of it. -/
abbrev Matcher := JsString → List JsString

/-- The class `\d`: one ASCII decimal digit. -/
def reDigit : Matcher
  | c :: r => if 48 ≤ c ∧ c ≤ 57 then [r] else []
  | [] => []

/-- A literal code unit. -/
def reChar (x : Nat) : Matcher
  | c :: r => if c = x then [r] else []
  | [] => []

/-- Concatenation of two expressions. -/
def reSeq (p q : Matcher) : Matcher := fun s => (p s).flatMap q

/-- The expression `p?`, greedy. -/
def reOpt (p : Matcher) : Matcher := fun s => p s ++ [s]

/-- The expression `\d{1,3}`. -/
def reDigits13 : Matcher := reSeq reDigit (reOpt (reSeq reDigit (reOpt reDigit)))

/-- The expression `(\.\d{1,3}){3}`. -/
def reDotGroups3 : Matcher :=
  reSeq (reSeq (reChar 46) reDigits13)
    (reSeq (reSeq (reChar 46) reDigits13) (reSeq (reChar 46) reDigits13))

/-- The function `isIP`: the test of `/^\d{1,3}(\.\d{1,3}){3}$/`, a match
anchored at the start that leaves nothing of the input. -/
def isIP (host : JsString) : Bool :=
  (reSeq reDigits13 reDotGroups3 host).any List.isEmpty

/-- The list of shortener hosts inside `isShortener`. -/
def shortenerList : List JsString :=
  [js "bit.ly", js "t.co", js "tinyurl.com", js "tiny.cc", js "ow.ly", js "buff.ly",
   js "adf.ly", js "rebrand.ly", js "rb.gy", js "is.gd", js "cutt.ly", js "shorte.st",
   js "soo.gd", js "trib.al", js "vcf.me", js "youtu.be", js "lnkd.in", js "t.ly",
   js "s.id", js "shorturl.at", js "soo.gd", js "short.cm", js "mcaf.ee", js "urlzs.com"]

/-- The function `isShortener`: membership in the set of known shorteners. -/
def isShortener (host : JsString) : Bool := shortenerList.contains host

/-- The function `hasUnicode`: a code unit outside `\x00-\x7F`, or the
punycode prefix. -/
def hasUnicode (host : JsString) : Bool :=
  host.any (fun c => decide (0x7F < c)) || startsWith host (js "xn--")

/-! ## Edit distance -/

/-- The cells `dp[i][1..]` of one row of the table, from the cells of
`a` still to be visited, the previous row starting at column `j-1`, and the
cell `dp[i][j-1]` to the left. -/
def distRowGo (bc : Nat) : JsString → List Nat → Nat → List Nat
  | x :: a, diag :: up :: prev, left =>
    let v := min (min (up + 1) (left + 1)) (diag + if x = bc then 0 else 1)
    v :: distRowGo bc a (up :: prev) v
  | _, _, _ => []

/-- Row `i` of the table from row `i-1`: `dp[i][0] = i`, then the inner loop
over `j`. -/
def distRow (a : JsString) (bc : Nat) (i : Nat) (prev : List Nat) : List Nat :=
  i :: distRowGo bc a prev i

/-- The rows of the table, from row `i` on, for the code units of `b` still
to be visited; the result is the last row. -/
def distRows (a : JsString) : JsString → Nat → List Nat → List Nat
  | [], _, prev => prev
  | bc :: b, i, prev => distRows a b (i + 1) (distRow a bc (i + 1) prev)

/-- The function `dist`: row 0 is `dp[0][j] = j`, the outer loop fills the
rows in order, and the result is `dp[n][m]`, the last cell of the last
row. -/
def dist (a b : JsString) : Nat :=
  ((distRows a b 0 (List.range (a.length + 1))).getLast?).getD 0

/-- The loop of `looksLike` over the canonical list, on the lowercased
target. -/
def looksLikeLoop (target : JsString) : List JsString → Bool
  | [] => false
  | good :: rest =>
    if target = good then false
    else if dist target good ≤ 1 then true
    else looksLikeLoop target rest

/-- The function `looksLike`. -/
def looksLike (target : JsString) (canonicalList : List JsString) : Bool :=
  looksLikeLoop (toLowerCase target) canonicalList

/-- The function `looksLike` over the lowercasing function of the platform:
`lower` stands for `String.prototype.toLowerCase`, which folds letters outside
ASCII as well; `looksLike` is the instance at `toLowerCase`. -/
def looksLikeWith (lower : JsString → JsString) (target : JsString)
    (canonicalList : List JsString) : Bool :=
  looksLikeLoop (lower target) canonicalList

/-- The list `HIGH_VALUE_BRANDS`. -/
def HIGH_VALUE_BRANDS : List JsString :=
  [js "google.com", js "gmail.com", js "microsoft.com", js "outlook.com", js "live.com",
   js "office.com", js "paypal.com", js "amazon.com", js "apple.com", js "facebook.com",
   js "instagram.com", js "linkedin.com", js "netflix.com", js "adobe.com",
   js "bankofamerica.com", js "chase.com", js "wellsfargo.com", js "hsbc.com",
   js "paypal.com", js "stripe.com", js "dropbox.com", js "slack.com", js "zoom.us",
   js "spotify.com", js "twitter.com", js "github.com", js "gitlab.com",
   js "steamcommunity.com"]

/-! ## Scoring function -/

/-- The object returned by `scoreFindings`. -/
structure RiskResult where
  url : JsString
  hostname : JsString
  score : Int
  level : JsString
  reasons : List JsString
deriving DecidableEq, Repr

/-- The two locals `score` and `reasons` of `scoreFindings`. -/
structure Acc where
  score : Int
  reasons : List JsString
deriving DecidableEq, Repr

/-- One statement `if (cond) { score += w; reasons.push(reason); }`. -/
def Acc.step (s : Acc) (cond : Bool) (w : Int) (reason : JsString) : Acc :=
  if cond then { score := s.score + w, reasons := s.reasons ++ [reason] } else s

/-- The local `parts`: `u.hostname.split(".").filter(Boolean)`. -/
def hostParts (hostname : JsString) : List JsString :=
  (split 46 hostname).filter fun p => !p.isEmpty

/-- The local `subCount`: `Math.max(0, parts.length - 2)`. -/
def subCount (parts : List JsString) : Int :=
  max 0 ((parts.length : Int) - 2)

/-- The local `topDomain`: `parts.slice(-2).join(".")`. -/
def topDomain (parts : List JsString) : JsString :=
  join [46] (sliceLast 2 parts)

/-- The condition of the port check: `u.port` is truthy and `defaultOK` is
false. -/
def unusualPort (u : URL) : Bool :=
  !u.port.isEmpty &&
    !((u.protocol == js "https:" && u.port == js "443") ||
      (u.protocol == js "http:" && u.port == js "80"))

/-- The function `scoreFindings`, over the URL constructor of the
platform. -/
def scoreFindings (newURL : JsString → Except JsString URL) (url : JsString) : RiskResult :=
  match toURL newURL url with
  | none =>
    { url := if url.isEmpty then js "(invalid)" else url
      hostname := js "(invalid)"
      score := 100
      level := js "High"
      reasons := [js "Invalid or malformed URL"] }
  | some u =>
    let s : Acc := { score := 0, reasons := [] }
    let s := s.step (u.protocol != js "https:") (WEIGHTS .NOT_HTTPS)
      (js "Not HTTPS (connection not encrypted)")
    let s := s.step (isIP u.hostname) (WEIGHTS .IP_HOST)
      (js "IP address used instead of domain")
    let s := s.step (hasUnicode u.hostname) (WEIGHTS .PUNYCODE)
      (js "Non-ASCII or punycode in domain (possible homograph)")
    let s := s.step (isShortener u.hostname) (WEIGHTS .SHORTENER)
      (js "URL shortener (destination hidden)")
    let parts := hostParts u.hostname
    let s := s.step (decide (subCount parts ≥ 2)) (WEIGHTS .MANY_SUBDOMAINS)
      (js "Many subdomains (possible cloaking)")
    let s := s.step (unusualPort u) (WEIGHTS .UNUSUAL_PORT)
      (js "Unusual port (" ++ u.port ++ js ")")
    let s := s.step (!u.pathname.isEmpty && decide (u.pathname.length > 80)) (WEIGHTS .LONG_PATH)
      (js "Very long path (possible obfuscation)")
    let paramCount := u.searchParamsKeys.length
    let s := s.step (decide (paramCount > 8)) (WEIGHTS .MANY_PARAMS)
      (js "Many query parameters")
    let s := s.step (decide (u.searchParamsToString.length > 120)) (WEIGHTS .LONG_QUERY)
      (js "Very long query string")
    let s := s.step (looksLike (topDomain parts) HIGH_VALUE_BRANDS) (WEIGHTS .LOOKS_LIKE_BRAND)
      (js "Domain looks like a high-value brand (possible typosquatting)")
    let score := max 0 (min 100 s.score)
    let level :=
      if score ≥ RISK_THRESHOLDS_HIGH then js "High"
      else if score ≥ RISK_THRESHOLDS_MEDIUM then js "Medium"
      else js "Low"
    { url := url, hostname := u.hostname, score := score, level := level, reasons := s.reasons }

/-! ## Vocabulary of the statements -/

/-- The detectors in evaluation order. -/
def allDetectors : List Detector :=
  [.NOT_HTTPS, .IP_HOST, .PUNYCODE, .SHORTENER, .MANY_SUBDOMAINS,
   .UNUSUAL_PORT, .LONG_PATH, .MANY_PARAMS, .LONG_QUERY, .LOOKS_LIKE_BRAND]

/-- The reason string each detector reports; the one of the port check
carries the port. -/
def reasonOf (port : JsString) : Detector → JsString
  | .NOT_HTTPS => js "Not HTTPS (connection not encrypted)"
  | .IP_HOST => js "IP address used instead of domain"
  | .PUNYCODE => js "Non-ASCII or punycode in domain (possible homograph)"
  | .SHORTENER => js "URL shortener (destination hidden)"
  | .MANY_SUBDOMAINS => js "Many subdomains (possible cloaking)"
  | .UNUSUAL_PORT => js "Unusual port (" ++ port ++ js ")"
  | .LONG_PATH => js "Very long path (possible obfuscation)"
  | .MANY_PARAMS => js "Many query parameters"
  | .LONG_QUERY => js "Very long query string"
  | .LOOKS_LIKE_BRAND => js "Domain looks like a high-value brand (possible typosquatting)"

/-- The condition under which each detector of `scoreFindings` fires. -/
def fires (u : URL) : Detector → Bool
  | .NOT_HTTPS => u.protocol != js "https:"
  | .IP_HOST => isIP u.hostname
  | .PUNYCODE => hasUnicode u.hostname
  | .SHORTENER => isShortener u.hostname
  | .MANY_SUBDOMAINS => decide (subCount (hostParts u.hostname) ≥ 2)
  | .UNUSUAL_PORT => unusualPort u
  | .LONG_PATH => !u.pathname.isEmpty && decide (u.pathname.length > 80)
  | .MANY_PARAMS => decide (u.searchParamsKeys.length > 8)
  | .LONG_QUERY => decide (u.searchParamsToString.length > 120)
  | .LOOKS_LIKE_BRAND => looksLike (topDomain (hostParts u.hostname)) HIGH_VALUE_BRANDS

/-- The detector steps of `scoreFindings` as a loop over a list of
detectors. -/
def runDetectors (u : URL) (ds : List Detector) (s : Acc) : Acc :=
  ds.foldl (fun s d => s.step (fires u d) (WEIGHTS d) (reasonOf u.port d)) s

/-- The detectors that fire on a URL, in evaluation order. -/
def fired (u : URL) : List Detector := allDetectors.filter (fires u)

/-- The parse of `http://192.168.1.1/login`. -/
def parsedIpLogin : URL :=
  { protocol := js "http:", hostname := js "192.168.1.1", port := [],
    pathname := js "/login", searchParams := [] }

/-- The parse of `https://www.google.com/`. -/
def parsedGoogle : URL :=
  { protocol := js "https:", hostname := js "www.google.com", port := [],
    pathname := js "/", searchParams := [] }

/-- The parse of `https://goggle.com/`. -/
def parsedGoggle : URL :=
  { protocol := js "https:", hostname := js "goggle.com", port := [],
    pathname := js "/", searchParams := [] }

/-- The parse of `https://a.b.c.d.example.com/`. -/
def parsedDeepHost : URL :=
  { protocol := js "https:", hostname := js "a.b.c.d.example.com", port := [],
    pathname := js "/", searchParams := [] }

/-- The string `https://example.com/?q=aa...a`, with 121 letters `a`. -/
def longQueryUrl : JsString := js "https://example.com/?q=" ++ List.replicate 121 97

/-- The parse of `longQueryUrl`: one parameter, serialised in 123 code
units. -/
def parsedLongQuery : URL :=
  { protocol := js "https:", hostname := js "example.com", port := [],
    pathname := js "/", searchParams := [(js "q", List.replicate 121 97)] }

/-- The string of a URL with nine short parameters. -/
def manyParamsUrl : JsString :=
  js "https://example.com/?a=1&b=2&c=3&d=4&e=5&f=6&g=7&h=8&i=9"

/-- The parse of `manyParamsUrl`: nine parameters, serialised in 35 code
units. -/
def parsedManyParams : URL :=
  { protocol := js "https:", hostname := js "example.com", port := [],
    pathname := js "/",
    searchParams := [(js "a", js "1"), (js "b", js "2"), (js "c", js "3"),
      (js "d", js "4"), (js "e", js "5"), (js "f", js "6"), (js "g", js "7"),
      (js "h", js "8"), (js "i", js "9")] }

/-- The parse of `https://example.com:0/`: the port is the string `0`. -/
def parsedPortZero : URL :=
  { protocol := js "https:", hostname := js "example.com", port := js "0",
    pathname := js "/", searchParams := [] }

/-- The string of an `https` URL on a shortener host with a port, a path of
82 code units, nine parameters and a long query. -/
def weakSignalsUrl : JsString :=
  js "https://bit.ly:8443/" ++ List.replicate 81 97 ++ js "?a=" ++ List.replicate 121 120 ++
    js "&b=2&c=3&d=4&e=5&f=6&g=7&h=8&i=9"

/-- The parse of `weakSignalsUrl`. -/
def parsedWeakSignals : URL :=
  { protocol := js "https:", hostname := js "bit.ly", port := js "8443",
    pathname := js "/" ++ List.replicate 81 97,
    searchParams := [(js "a", List.replicate 121 120), (js "b", js "2"), (js "c", js "3"),
      (js "d", js "4"), (js "e", js "5"), (js "f", js "6"), (js "g", js "7"),
      (js "h", js "8"), (js "i", js "9")] }

/-- Results of the WHATWG URL parser on the URL strings used as concrete
inputs below. -/
def knownURLs : List (JsString × URL) :=
  [(js "http://192.168.1.1/login", parsedIpLogin),
   (js "https://www.google.com/", parsedGoogle),
   (js "https://goggle.com/", parsedGoggle),
   (js "https://a.b.c.d.example.com/", parsedDeepHost),
   (longQueryUrl, parsedLongQuery),
   (manyParamsUrl, parsedManyParams),
   (js "https://example.com:0/", parsedPortZero),
   (weakSignalsUrl, parsedWeakSignals)]

/-- The URL constructor on the concrete inputs: the parse of a string of
`knownURLs`, and the exception it throws on the malformed strings `""`,
`"not a url"` and `"ht!tp://x"`, which are not in the table. -/
def newURLKnown (s : JsString) : Except JsString URL :=
  match knownURLs.lookup s with
  | some u => .ok u
  | none => .error (js "TypeError: Invalid URL")

/-! ## Reference notions for the edit distance -/

/-- The recursive definition of the Levenshtein distance: a deletion or an
insertion costs 1, a substitution costs 1 unless the two elements are
equal. -/
def lev : List Nat → List Nat → Nat
  | [], b => b.length
  | x :: a, [] => (x :: a).length
  | x :: a, y :: b =>
    min (min (lev (x :: a) b + 1) (lev a (y :: b) + 1)) (lev a b + if x = y then 0 else 1)
termination_by a b => a.length + b.length

/-- The distances `lev ra rb`, `lev (x1 :: ra) rb`, `lev (x2 :: x1 :: ra) rb`,
and so on, as `ra` grows by the elements `x1, x2, ...` of `rest`. -/
def levRow (rb : List Nat) : List Nat → List Nat → List Nat
  | ra, [] => [lev ra rb]
  | ra, x :: rest => lev ra rb :: levRow rb (x :: ra) rest

/-- The number of positions at which two strings differ, up to the length of
the shorter one. -/
def mismatches : JsString → JsString → Nat
  | c :: a, d :: b => (if c = d then 0 else 1) + mismatches a b
  | _, _ => 0

/-! ## Edit sequences -/

/-- One single-character edit: `b` is `a` with one code unit substituted,
inserted or deleted. -/
inductive EditStep : JsString → JsString → Prop
  | substitute (x y : JsString) (c d : Nat) : EditStep (x ++ c :: y) (x ++ d :: y)
  | insert (x y : JsString) (d : Nat) : EditStep (x ++ y) (x ++ d :: y)
  | delete (x y : JsString) (c : Nat) : EditStep (x ++ c :: y) (x ++ y)

/-- A sequence of `n` single-character edits that transforms `a` into `b`. -/
inductive EditChain : JsString → JsString → Nat → Prop
  | done (a : JsString) : EditChain a a 0
  | step {a b c : JsString} {n : Nat} : EditStep a b → EditChain b c n → EditChain a c (n + 1)

/-- The loop of `looksLike` with its exact-match test left out: only the
distance test decides. -/
def looksLikeLoopDistOnly (target : JsString) : List JsString → Bool
  | [] => false
  | good :: rest =>
    if dist target good ≤ 1 then true
    else looksLikeLoopDistOnly target rest

/-! ## Dotted quads -/

/-- A group of one to three ASCII decimal digits. -/
def IsDigitGroup (g : JsString) : Prop :=
  1 ≤ g.length ∧ g.length ≤ 3 ∧ ∀ c ∈ g, 48 ≤ c ∧ c ≤ 57

/-- Four groups of one to three ASCII decimal digits separated by single
dots, with nothing before or after. -/
def IsDottedQuad (host : JsString) : Prop :=
  ∃ g1 g2 g3 g4 : JsString,
    IsDigitGroup g1 ∧ IsDigitGroup g2 ∧ IsDigitGroup g3 ∧ IsDigitGroup g4 ∧
    host = g1 ++ 46 :: (g2 ++ 46 :: (g3 ++ 46 :: g4))

/-! ## The accumulator of `scoreFindings` -/

theorem runDetectors_reasons (u : URL) (ds : List Detector) (s : Acc) :
    (runDetectors u ds s).reasons = s.reasons ++ (ds.filter (fires u)).map (reasonOf u.port) := by
  induction ds generalizing s with
  | nil => simp [runDetectors]
  | cons d ds ih =>
    have h := ih (s.step (fires u d) (WEIGHTS d) (reasonOf u.port d))
    simp only [runDetectors, List.foldl_cons] at h ⊢
    rw [h]
    cases hd : fires u d <;> simp [Acc.step, List.filter_cons, hd]

theorem runDetectors_score (u : URL) (ds : List Detector) (s : Acc) :
    (runDetectors u ds s).score = s.score + ((ds.filter (fires u)).map WEIGHTS).sum := by
  induction ds generalizing s with
  | nil => simp [runDetectors]
  | cons d ds ih =>
    have h := ih (s.step (fires u d) (WEIGHTS d) (reasonOf u.port d))
    simp only [runDetectors, List.foldl_cons] at h ⊢
    rw [h]
    cases hd : fires u d <;> simp [Acc.step, List.filter_cons, hd, add_assoc]

/-- The result of `scoreFindings` on a string the parser accepts, in terms of
the detectors that fire. -/
theorem scoreFindings_some (newURL : JsString → Except JsString URL) (url : JsString) (u : URL)
    (h : toURL newURL url = some u) :
    scoreFindings newURL url =
      { url := url
        hostname := u.hostname
        score := max 0 (min 100 ((fired u).map WEIGHTS).sum)
        level :=
          if max 0 (min 100 ((fired u).map WEIGHTS).sum) ≥ RISK_THRESHOLDS_HIGH then js "High"
          else if max 0 (min 100 ((fired u).map WEIGHTS).sum) ≥ RISK_THRESHOLDS_MEDIUM then
            js "Medium"
          else js "Low"
        reasons := (fired u).map (reasonOf u.port) } := by
  have hr := runDetectors_reasons u allDetectors { score := 0, reasons := [] }
  have hs := runDetectors_score u allDetectors { score := 0, reasons := [] }
  simp only [List.nil_append, zero_add] at hr hs
  unfold scoreFindings
  rw [h]
  simp only [fired, ← hr, ← hs]
  rfl

/-! ## Reason strings -/

theorem reasonOf_take (port : JsString) (d : Detector) :
    (reasonOf port d).take 11 = (reasonOf [] d).take 11 := by
  cases d <;> rfl

theorem reasonOf_injective (port : JsString) (d e : Detector)
    (h : reasonOf port d = reasonOf port e) : d = e := by
  have h11 := congrArg (List.take 11) h
  rw [reasonOf_take port d, reasonOf_take port e] at h11
  revert h11
  cases d <;> cases e <;> decide!

theorem reasonOf_ne_invalid (port : JsString) (d : Detector) :
    reasonOf port d ≠ js "Invalid or malformed URL" := by
  intro h
  have h11 := congrArg (List.take 11) h
  rw [reasonOf_take port d] at h11
  revert h11
  cases d <;> decide!

theorem allDetectors_nodup : allDetectors.Nodup := by decide

theorem mem_allDetectors (d : Detector) : d ∈ allDetectors := by
  cases d <;> decide

theorem mem_fired (u : URL) (d : Detector) : d ∈ fired u ↔ fires u d = true := by
  simp [fired, List.mem_filter, mem_allDetectors]

theorem reasonOf_mem_fired (u : URL) (d : Detector) :
    reasonOf u.port d ∈ (fired u).map (reasonOf u.port) ↔ fires u d = true := by
  rw [← mem_fired, List.mem_map]
  constructor
  · rintro ⟨e, he, hed⟩
    rwa [← reasonOf_injective u.port e d hed]
  · intro hd
    exact ⟨d, hd, rfl⟩

theorem WEIGHTS_nonneg (d : Detector) : 0 ≤ WEIGHTS d := by
  cases d <;> decide

theorem fired_sum_nonneg (u : URL) : 0 ≤ ((fired u).map WEIGHTS).sum := by
  apply List.sum_nonneg
  intro x hx
  obtain ⟨d, -, rfl⟩ := List.mem_map.mp hx
  exact WEIGHTS_nonneg d

theorem levels_distinct :
    js "High" ≠ js "Medium" ∧ js "High" ≠ js "Low" ∧ js "Medium" ≠ js "Low" := by
  decide!

theorem scoreFindings_none (newURL : JsString → Except JsString URL) (url : JsString)
    (h : toURL newURL url = none) :
    scoreFindings newURL url =
      { url := if url.isEmpty then js "(invalid)" else url
        hostname := js "(invalid)"
        score := 100
        level := js "High"
        reasons := [js "Invalid or malformed URL"] } := by
  unfold scoreFindings
  rw [h]

/-! ## Invalid input, score bounds and level -/

/-- C1: on every input string the URL parser rejects (`toURL` returns null),
`scoreFindings` returns score 100, level "High", hostname "(invalid)" and a
reasons list of length exactly 1, whose entry is the invalid-URL message: the
reason of no detector is in it, whatever the port. -/
theorem C1_rejected_input_result (newURL : JsString → Except JsString URL) (url : JsString)
    (h : toURL newURL url = none) :
    (scoreFindings newURL url).score = 100 ∧
    (scoreFindings newURL url).level = js "High" ∧
    (scoreFindings newURL url).hostname = js "(invalid)" ∧
    (scoreFindings newURL url).reasons.length = 1 ∧
    (scoreFindings newURL url).reasons = [js "Invalid or malformed URL"] ∧
    ∀ (port : JsString) (d : Detector), reasonOf port d ∉ (scoreFindings newURL url).reasons := by
  rw [scoreFindings_none newURL url h]
  refine ⟨rfl, rfl, rfl, rfl, rfl, ?_⟩
  intro port d hmem
  exact reasonOf_ne_invalid port d (List.mem_singleton.mp hmem)

/-- Instance of C1 at the malformed input "not a url". -/
theorem C1_rejected_input_result_witness :
    toURL newURLKnown (js "not a url") = none ∧
    (scoreFindings newURLKnown (js "not a url")).score = 100 ∧
    (scoreFindings newURLKnown (js "not a url")).level = js "High" ∧
    (scoreFindings newURLKnown (js "not a url")).hostname = js "(invalid)" ∧
    (scoreFindings newURLKnown (js "not a url")).reasons.length = 1 ∧
    (scoreFindings newURLKnown (js "not a url")).reasons = [js "Invalid or malformed URL"] ∧
    ∀ (port : JsString) (d : Detector),
      reasonOf port d ∉ (scoreFindings newURLKnown (js "not a url")).reasons :=
  ⟨by decide!, C1_rejected_input_result newURLKnown (js "not a url") (by decide!)⟩

/-- C2: for every input, accepted by the URL parser or rejected, the score
returned by `scoreFindings` is an integer between 0 and 100. -/
theorem C2_score_between_0_and_100 (newURL : JsString → Except JsString URL) (url : JsString) :
    0 ≤ (scoreFindings newURL url).score ∧ (scoreFindings newURL url).score ≤ 100 := by
  cases h : toURL newURL url with
  | none =>
    rw [scoreFindings_none newURL url h]
    exact ⟨show (0 : Int) ≤ 100 by decide, show (100 : Int) ≤ 100 by decide⟩
  | some u =>
    rw [scoreFindings_some newURL url u h]
    exact ⟨le_max_left _ _, max_le (by decide) (min_le_left _ _)⟩

/-- C3: in every result of `scoreFindings` the level is determined by the
score: "High" iff score >= 75, "Medium" iff 40 <= score < 75, "Low" iff
score < 40. -/
theorem C3_level_matches_score (newURL : JsString → Except JsString URL) (url : JsString) :
    ((scoreFindings newURL url).level = js "High" ↔ 75 ≤ (scoreFindings newURL url).score) ∧
    ((scoreFindings newURL url).level = js "Medium" ↔
      40 ≤ (scoreFindings newURL url).score ∧ (scoreFindings newURL url).score < 75) ∧
    ((scoreFindings newURL url).level = js "Low" ↔ (scoreFindings newURL url).score < 40) := by
  obtain ⟨hHM, hHL, hML⟩ := levels_distinct
  cases h : toURL newURL url with
  | none =>
    rw [scoreFindings_none newURL url h]
    refine ⟨by simp, ?_, ?_⟩
    · simp only [show ¬ ((100 : Int) < 75) by decide, and_false, iff_false]
      exact hHM
    · simp only [show ¬ ((100 : Int) < 40) by decide, iff_false]
      exact hHL
  | some u =>
    rw [scoreFindings_some newURL url u h]
    simp only [RISK_THRESHOLDS_HIGH, RISK_THRESHOLDS_MEDIUM, ge_iff_le]
    generalize max 0 (min 100 ((fired u).map WEIGHTS).sum) = sc
    by_cases h75 : 75 ≤ sc
    · simp only [h75, if_true, true_iff, iff_true]
      refine ⟨trivial, ?_, ?_⟩
      · constructor
        · intro hc; exact absurd hc hHM
        · intro hc; omega
      · constructor
        · intro hc; exact absurd hc hHL
        · intro hc; omega
    · by_cases h40 : 40 ≤ sc
      · simp only [h75, h40, if_true, if_false, true_and, iff_false, true_iff]
        refine ⟨fun hc => hHM hc.symm, by omega, ?_⟩
        constructor
        · intro hc; exact absurd hc hML
        · intro hc; omega
      · simp only [h75, h40, if_false, false_and, iff_false, true_iff]
        exact ⟨fun hc => hHL hc.symm, fun hc => hML hc.symm, by omega⟩

/-! ## Score and reasons of an accepted URL -/

/-- C4: for every successfully parsed URL the score equals `min(100, S)`,
with `S` the sum of the `WEIGHTS` entries of exactly the detectors whose
reason string is in the returned reasons; a detector has its reason there
iff it fired. -/
theorem C4_score_is_clamped_weight_sum (newURL : JsString → Except JsString URL)
    (url : JsString) (u : URL) (h : toURL newURL url = some u) :
    (scoreFindings newURL url).score =
      min 100 ((allDetectors.filter fun d =>
        decide (reasonOf u.port d ∈ (scoreFindings newURL url).reasons)).map WEIGHTS).sum ∧
    ∀ d : Detector,
      reasonOf u.port d ∈ (scoreFindings newURL url).reasons ↔ fires u d = true := by
  rw [scoreFindings_some newURL url u h]
  simp only
  have hf : (allDetectors.filter fun d =>
      decide (reasonOf u.port d ∈ (fired u).map (reasonOf u.port))) = fired u := by
    unfold fired
    apply List.filter_congr
    intro d _
    have hd := reasonOf_mem_fired u d
    rw [← fired]
    cases hfd : fires u d
    · rw [hfd] at hd
      exact decide_eq_false fun hm => Bool.false_ne_true (hd.mp hm)
    · rw [hfd] at hd
      exact decide_eq_true (hd.mpr rfl)
  refine ⟨?_, reasonOf_mem_fired u⟩
  rw [hf]
  exact max_eq_right (le_min (by decide) (fired_sum_nonneg u))

/-- Instance of C4 at `http://192.168.1.1/login`. -/
theorem C4_score_is_clamped_weight_sum_witness :
    toURL newURLKnown (js "http://192.168.1.1/login") = some parsedIpLogin ∧
    ((scoreFindings newURLKnown (js "http://192.168.1.1/login")).score =
      min 100 ((allDetectors.filter fun d =>
        decide (reasonOf parsedIpLogin.port d ∈
          (scoreFindings newURLKnown (js "http://192.168.1.1/login")).reasons)).map
            WEIGHTS).sum ∧
    ∀ d : Detector,
      reasonOf parsedIpLogin.port d ∈
        (scoreFindings newURLKnown (js "http://192.168.1.1/login")).reasons ↔
      fires parsedIpLogin d = true) :=
  ⟨by decide!,
   C4_score_is_clamped_weight_sum newURLKnown (js "http://192.168.1.1/login") parsedIpLogin
     (by decide!)⟩

/-- C5: for every successfully parsed URL the reasons returned by
`scoreFindings` are a duplicate-free subsequence of the fixed list of the ten
detector reasons in evaluation order, the port reason carrying the port of
the URL. -/
theorem C5_reasons_in_detector_order (newURL : JsString → Except JsString URL)
    (url : JsString) (u : URL) (h : toURL newURL url = some u) :
    List.Sublist (scoreFindings newURL url).reasons
      [js "Not HTTPS (connection not encrypted)",
       js "IP address used instead of domain",
       js "Non-ASCII or punycode in domain (possible homograph)",
       js "URL shortener (destination hidden)",
       js "Many subdomains (possible cloaking)",
       js "Unusual port (" ++ u.port ++ js ")",
       js "Very long path (possible obfuscation)",
       js "Many query parameters",
       js "Very long query string",
       js "Domain looks like a high-value brand (possible typosquatting)"] ∧
    (scoreFindings newURL url).reasons.Nodup := by
  rw [scoreFindings_some newURL url u h]
  have hsub : List.Sublist ((fired u).map (reasonOf u.port))
      (allDetectors.map (reasonOf u.port)) :=
    (List.filter_sublist allDetectors).map (reasonOf u.port)
  have hnodup : (allDetectors.map (reasonOf u.port)).Nodup :=
    allDetectors_nodup.map fun d e hde => reasonOf_injective u.port d e hde
  exact ⟨hsub, hnodup.sublist hsub⟩

/-- Instance of C5 at `http://192.168.1.1/login`. -/
theorem C5_reasons_in_detector_order_witness :
    toURL newURLKnown (js "http://192.168.1.1/login") = some parsedIpLogin ∧
    (List.Sublist (scoreFindings newURLKnown (js "http://192.168.1.1/login")).reasons
      [js "Not HTTPS (connection not encrypted)",
       js "IP address used instead of domain",
       js "Non-ASCII or punycode in domain (possible homograph)",
       js "URL shortener (destination hidden)",
       js "Many subdomains (possible cloaking)",
       js "Unusual port (" ++ parsedIpLogin.port ++ js ")",
       js "Very long path (possible obfuscation)",
       js "Many query parameters",
       js "Very long query string",
       js "Domain looks like a high-value brand (possible typosquatting)"] ∧
    (scoreFindings newURLKnown (js "http://192.168.1.1/login")).reasons.Nodup) :=
  ⟨by decide!,
   C5_reasons_in_detector_order newURLKnown (js "http://192.168.1.1/login") parsedIpLogin
     (by decide!)⟩

/-! ## Brand look-alike check -/

theorem looksLikeLoop_brand :
    ∀ b ∈ HIGH_VALUE_BRANDS, looksLikeLoop b HIGH_VALUE_BRANDS = false := by
  decide!

theorem brand_reason_iff (newURL : JsString → Except JsString URL) (url : JsString) (u : URL)
    (h : toURL newURL url = some u) :
    js "Domain looks like a high-value brand (possible typosquatting)" ∈
        (scoreFindings newURL url).reasons ↔
      looksLikeLoop (toLowerCase (topDomain (hostParts u.hostname))) HIGH_VALUE_BRANDS = true := by
  rw [scoreFindings_some newURL url u h]
  exact reasonOf_mem_fired u .LOOKS_LIKE_BRAND

/-- C6: an exact brand match never triggers LOOKS_LIKE_BRAND: for every
successfully parsed URL whose registrable domain (the last two non-empty
labels of the hostname, joined by a dot and lowercased) is an entry of
`HIGH_VALUE_BRANDS`, the typosquat reason is not among the reasons. -/
theorem C6_exact_brand_not_flagged (newURL : JsString → Except JsString URL)
    (url : JsString) (u : URL) (h : toURL newURL url = some u)
    (hb : toLowerCase (topDomain (hostParts u.hostname)) ∈ HIGH_VALUE_BRANDS) :
    js "Domain looks like a high-value brand (possible typosquatting)" ∉
      (scoreFindings newURL url).reasons := by
  rw [brand_reason_iff newURL url u h, looksLikeLoop_brand _ hb]
  exact Bool.false_ne_true

/-- Instance of C6 at `https://www.google.com/`, whose registrable domain is
`google.com`. -/
theorem C6_exact_brand_not_flagged_witness :
    toURL newURLKnown (js "https://www.google.com/") = some parsedGoogle ∧
    toLowerCase (topDomain (hostParts parsedGoogle.hostname)) = js "google.com" ∧
    toLowerCase (topDomain (hostParts parsedGoogle.hostname)) ∈ HIGH_VALUE_BRANDS ∧
    js "Domain looks like a high-value brand (possible typosquatting)" ∉
      (scoreFindings newURLKnown (js "https://www.google.com/")).reasons :=
  ⟨by decide!, by decide!, by decide!,
   C6_exact_brand_not_flagged newURLKnown (js "https://www.google.com/") parsedGoogle
     (by decide!) (by decide!)⟩

/-! ## The table of `dist` computes the recursive distance -/

theorem lev_nil_left (b : List Nat) : lev [] b = b.length := by
  rw [lev]

theorem lev_nil_right (a : List Nat) : lev a [] = a.length := by
  cases a <;> simp [lev]

theorem lev_cons_cons (x y : Nat) (a b : List Nat) :
    lev (x :: a) (y :: b) =
      min (min (lev (x :: a) b + 1) (lev a (y :: b) + 1)) (lev a b + if x = y then 0 else 1) := by
  rw [lev]

theorem levRow_eq_cons (rb ra rest : List Nat) :
    levRow rb ra rest = lev ra rb :: (levRow rb ra rest).tail := by
  cases rest <;> rfl

theorem distRowGo_levRow (bc : Nat) (rb : List Nat) (rest ra : List Nat) :
    distRowGo bc rest (levRow rb ra rest) (lev ra (bc :: rb)) =
      (levRow (bc :: rb) ra rest).tail := by
  induction rest generalizing ra with
  | nil => rfl
  | cons x rest ih =>
    have hup := levRow_eq_cons rb (x :: ra) rest
    simp only [levRow, List.tail_cons]
    rw [hup, distRowGo, ← hup, ← lev_cons_cons, ih (x :: ra), ← levRow_eq_cons]

theorem distRow_levRow (a : List Nat) (bc : Nat) (rb : List Nat) :
    distRow a bc (rb.length + 1) (levRow rb [] a) = levRow (bc :: rb) [] a := by
  have h := distRowGo_levRow bc rb a []
  rw [lev_nil_left] at h
  rw [distRow, levRow_eq_cons (bc :: rb) [] a, lev_nil_left]
  exact congrArg _ h

theorem distRows_levRow (a : List Nat) (b rb : List Nat) :
    distRows a b rb.length (levRow rb [] a) = levRow (b.reverse ++ rb) [] a := by
  induction b generalizing rb with
  | nil => rfl
  | cons bc b ih =>
    rw [distRows, distRow_levRow, List.reverse_cons, List.append_assoc]
    exact ih (bc :: rb)

theorem levRow_nil (ra rest : List Nat) :
    levRow [] ra rest = List.range' ra.length (rest.length + 1) := by
  induction rest generalizing ra with
  | nil => simp [levRow, lev_nil_right]
  | cons x rest ih =>
    rw [levRow, ih (x :: ra), lev_nil_right]
    simp [List.range'_succ]

theorem levRow_getLast (rb rest ra : List Nat) :
    (levRow rb ra rest).getLast? = some (lev (rest.reverse ++ ra) rb) := by
  induction rest generalizing ra with
  | nil => rfl
  | cons x rest ih =>
    rw [levRow, levRow_eq_cons, List.getLast?_cons_cons, ← levRow_eq_cons, ih (x :: ra)]
    simp

theorem dist_eq_lev (a b : List Nat) : dist a b = lev a.reverse b.reverse := by
  have h0 : List.range (a.length + 1) = levRow [] [] a := by
    rw [levRow_nil, List.range_eq_range']
    rfl
  have h := distRows_levRow a b []
  rw [List.length_nil, ← h0] at h
  rw [dist, h, levRow_getLast]
  simp

theorem lev_cons_cons_le (x y : Nat) (a b : List Nat) :
    lev (x :: a) (y :: b) ≤ lev a b + if x = y then 0 else 1 := by
  rw [lev_cons_cons]
  exact min_le_right _ _

theorem lev_self (a : List Nat) : lev a a = 0 := by
  induction a with
  | nil => exact lev_nil_left []
  | cons x a ih =>
    have h := lev_cons_cons_le x x a a
    simp only [ih, if_true] at h
    omega

theorem lev_substitution_le (p q : List Nat) (c d : Nat) :
    lev (p ++ c :: q) (p ++ d :: q) ≤ 1 := by
  induction p with
  | nil =>
    have h := lev_cons_cons_le c d q q
    rw [lev_self] at h
    simp only [List.nil_append]
    split at h <;> omega
  | cons x p ih =>
    have h := lev_cons_cons_le x x (p ++ c :: q) (p ++ d :: q)
    simp only [if_true] at h
    simp only [List.cons_append]
    omega

theorem dist_substitution_le (x y : List Nat) (c d : Nat) :
    dist (x ++ c :: y) (x ++ d :: y) ≤ 1 := by
  rw [dist_eq_lev]
  simp only [List.reverse_append, List.reverse_cons, List.append_assoc, List.singleton_append]
  exact lev_substitution_le y.reverse x.reverse c d

/-! ## Typosquats of a brand -/

theorem mismatches_self (a : JsString) : mismatches a a = 0 := by
  induction a with
  | nil => rfl
  | cons c a ih => simp [mismatches, ih]

theorem mismatches_substitution (x y : JsString) (c d : Nat) (hcd : c ≠ d) :
    mismatches (x ++ c :: y) (x ++ d :: y) = 1 := by
  induction x with
  | nil => simp [mismatches, hcd, mismatches_self]
  | cons e x ih => simp [mismatches, ih]

theorem brands_no_substitution :
    ∀ b1 ∈ HIGH_VALUE_BRANDS, ∀ b2 ∈ HIGH_VALUE_BRANDS,
      ¬ (b1.length = b2.length ∧ mismatches b1 b2 = 1) := by
  decide!

theorem looksLikeLoop_of_near (target : JsString) (l : List JsString)
    (hnot : target ∉ l) (hnear : ∃ g ∈ l, dist target g ≤ 1) :
    looksLikeLoop target l = true := by
  induction l with
  | nil =>
    obtain ⟨g, hg, -⟩ := hnear
    exact absurd hg (List.not_mem_nil g)
  | cons good rest ih =>
    have hne : target ≠ good := fun he => hnot (he ▸ List.mem_cons_self _ _)
    have hrest : target ∉ rest := fun hm => hnot (List.mem_cons_of_mem _ hm)
    rw [looksLikeLoop, if_neg hne]
    by_cases hd : dist target good ≤ 1
    · rw [if_pos hd]
    · rw [if_neg hd]
      apply ih hrest
      obtain ⟨g, hg, hgd⟩ := hnear
      rcases List.mem_cons.mp hg with rfl | hg
      · exact absurd hgd hd
      · exact ⟨g, hg, hgd⟩

theorem looksLikeLoop_substitution (x y : JsString) (c d : Nat) (hcd : c ≠ d)
    (hb : x ++ d :: y ∈ HIGH_VALUE_BRANDS) :
    looksLikeLoop (x ++ c :: y) HIGH_VALUE_BRANDS = true := by
  apply looksLikeLoop_of_near
  · intro hmem
    refine brands_no_substitution _ hmem _ hb ⟨?_, mismatches_substitution x y c d hcd⟩
    simp
  · exact ⟨_, hb, dist_substitution_le x y c d⟩

/-- C7: a single-character substitution triggers the brand detector: for
every successfully parsed URL whose lowercased registrable domain is an entry
of `HIGH_VALUE_BRANDS` with exactly one code unit replaced by a different
one, the typosquat reason is among the reasons and the score is at least
60. -/
theorem C7_substitution_flagged (newURL : JsString → Except JsString URL)
    (url : JsString) (u : URL) (h : toURL newURL url = some u)
    (x y : JsString) (c d : Nat) (hcd : c ≠ d)
    (ht : toLowerCase (topDomain (hostParts u.hostname)) = x ++ c :: y)
    (hb : x ++ d :: y ∈ HIGH_VALUE_BRANDS) :
    js "Domain looks like a high-value brand (possible typosquatting)" ∈
      (scoreFindings newURL url).reasons ∧
    60 ≤ (scoreFindings newURL url).score := by
  have hloop := looksLikeLoop_substitution x y c d hcd hb
  rw [← ht] at hloop
  refine ⟨(brand_reason_iff newURL url u h).mpr hloop, ?_⟩
  rw [scoreFindings_some newURL url u h]
  have hfired : Detector.LOOKS_LIKE_BRAND ∈ fired u := (mem_fired u _).mpr hloop
  have hle : WEIGHTS .LOOKS_LIKE_BRAND ≤ ((fired u).map WEIGHTS).sum := by
    apply List.single_le_sum
    · intro w hw
      obtain ⟨e, -, rfl⟩ := List.mem_map.mp hw
      exact WEIGHTS_nonneg e
    · exact List.mem_map.mpr ⟨_, hfired, rfl⟩
  have h60 : WEIGHTS .LOOKS_LIKE_BRAND = 60 := rfl
  rw [h60] at hle
  exact le_max_of_le_right (le_min (by decide) hle)

/-- Instance of C7 at `https://goggle.com/`: `goggle.com` is `google.com`
with its third letter `o` replaced by `g`. -/
theorem C7_substitution_flagged_witness :
    toURL newURLKnown (js "https://goggle.com/") = some parsedGoggle ∧
    (103 : Nat) ≠ 111 ∧
    toLowerCase (topDomain (hostParts parsedGoggle.hostname)) = js "go" ++ 103 :: js "gle.com" ∧
    js "go" ++ 111 :: js "gle.com" ∈ HIGH_VALUE_BRANDS ∧
    js "Domain looks like a high-value brand (possible typosquatting)" ∈
      (scoreFindings newURLKnown (js "https://goggle.com/")).reasons ∧
    60 ≤ (scoreFindings newURLKnown (js "https://goggle.com/")).score :=
  ⟨by decide!, by decide, by decide!, by decide!,
   C7_substitution_flagged newURLKnown (js "https://goggle.com/") parsedGoggle (by decide!)
     (js "go") (js "gle.com") 103 111 (by decide) (by decide!) (by decide!)⟩

/-! ## The URL `http://192.168.1.1/login` -/

/-- C8, as stated, fails: on `http://192.168.1.1/login` the score is 100 and
not 85, since the four octets are four host labels and the subdomain check
adds its 15 to the 40 and 45 of the protocol and IP checks. -/
theorem C8_score_85_refuted :
    toURL newURLKnown (js "http://192.168.1.1/login") = some parsedIpLogin ∧
    (scoreFindings newURLKnown (js "http://192.168.1.1/login")).score = 100 ∧
    ¬ (js "Not HTTPS (connection not encrypted)" ∈
          (scoreFindings newURLKnown (js "http://192.168.1.1/login")).reasons ∧
        js "IP address used instead of domain" ∈
          (scoreFindings newURLKnown (js "http://192.168.1.1/login")).reasons ∧
        (scoreFindings newURLKnown (js "http://192.168.1.1/login")).score = 40 + 45 ∧
        (scoreFindings newURLKnown (js "http://192.168.1.1/login")).level = js "High") := by
  have hs : (scoreFindings newURLKnown (js "http://192.168.1.1/login")).score = 100 := by
    decide!
  refine ⟨by decide!, hs, ?_⟩
  rintro ⟨-, -, h85, -⟩
  rw [hs] at h85
  exact absurd h85 (by decide)

/-- C8, amended: for the URL `http://192.168.1.1/login` (protocol `http:`,
hostname `192.168.1.1`, no port, path `/login`, empty query) the reasons are
"Not HTTPS", "IP address used instead of domain" and "Many subdomains", in
this order, the score is min(100, 40 + 45 + 15) = 100 and the level is
"High". -/
theorem C8_ip_login_result (newURL : JsString → Except JsString URL) (url : JsString)
    (h : toURL newURL url = some parsedIpLogin) :
    js "Not HTTPS (connection not encrypted)" ∈ (scoreFindings newURL url).reasons ∧
    js "IP address used instead of domain" ∈ (scoreFindings newURL url).reasons ∧
    (scoreFindings newURL url).reasons =
      [js "Not HTTPS (connection not encrypted)", js "IP address used instead of domain",
       js "Many subdomains (possible cloaking)"] ∧
    (scoreFindings newURL url).score = min 100 (40 + 45 + 15) ∧
    (scoreFindings newURL url).score = 100 ∧
    (scoreFindings newURL url).level = js "High" := by
  rw [scoreFindings_some newURL url parsedIpLogin h]
  have hf : fired parsedIpLogin = [.NOT_HTTPS, .IP_HOST, .MANY_SUBDOMAINS] := by decide!
  simp only [hf]
  refine ⟨?_, ?_, ?_, ?_, ?_, ?_⟩ <;> decide!

/-- Instance of the amended C8 with the string `http://192.168.1.1/login`
itself as input. -/
theorem C8_ip_login_result_witness :
    toURL newURLKnown (js "http://192.168.1.1/login") = some parsedIpLogin ∧
    (js "Not HTTPS (connection not encrypted)" ∈
      (scoreFindings newURLKnown (js "http://192.168.1.1/login")).reasons ∧
    js "IP address used instead of domain" ∈
      (scoreFindings newURLKnown (js "http://192.168.1.1/login")).reasons ∧
    (scoreFindings newURLKnown (js "http://192.168.1.1/login")).reasons =
      [js "Not HTTPS (connection not encrypted)", js "IP address used instead of domain",
       js "Many subdomains (possible cloaking)"] ∧
    (scoreFindings newURLKnown (js "http://192.168.1.1/login")).score = min 100 (40 + 45 + 15) ∧
    (scoreFindings newURLKnown (js "http://192.168.1.1/login")).score = 100 ∧
    (scoreFindings newURLKnown (js "http://192.168.1.1/login")).level = js "High") :=
  ⟨by decide!, C8_ip_login_result newURLKnown (js "http://192.168.1.1/login") (by decide!)⟩

/-! ## Subdomain depth and query checks -/

theorem reason_mem_iff_fires (newURL : JsString → Except JsString URL) (url : JsString)
    (u : URL) (h : toURL newURL url = some u) (d : Detector) :
    reasonOf u.port d ∈ (scoreFindings newURL url).reasons ↔ fires u d = true := by
  rw [scoreFindings_some newURL url u h]
  exact reasonOf_mem_fired u d

/-- C9: for every successfully parsed URL the reason "Many subdomains
(possible cloaking)", of weight 15, is reported iff `max(0, k - 2) >= 2`, with
`k` the number of non-empty segments of the hostname split on "."; for the
hostname `a.b.c.d.example.com` the count is 4 and the reason is reported. -/
theorem C9_many_subdomains_iff (newURL : JsString → Except JsString URL) (url : JsString)
    (u : URL) (h : toURL newURL url = some u) :
    (js "Many subdomains (possible cloaking)" ∈ (scoreFindings newURL url).reasons ↔
      2 ≤ max (0 : Int) ((((split 46 u.hostname).filter fun p => !p.isEmpty).length : Int) - 2)) ∧
    WEIGHTS .MANY_SUBDOMAINS = 15 ∧
    (u.hostname = js "a.b.c.d.example.com" →
      max (0 : Int) ((((split 46 u.hostname).filter fun p => !p.isEmpty).length : Int) - 2) = 4 ∧
      js "Many subdomains (possible cloaking)" ∈ (scoreFindings newURL url).reasons) := by
  have hiff : js "Many subdomains (possible cloaking)" ∈ (scoreFindings newURL url).reasons ↔
      2 ≤ max (0 : Int)
        ((((split 46 u.hostname).filter fun p => !p.isEmpty).length : Int) - 2) := by
    have hd := reason_mem_iff_fires newURL url u h .MANY_SUBDOMAINS
    simp only [fires, decide_eq_true_eq] at hd
    exact hd
  refine ⟨hiff, rfl, ?_⟩
  intro hhost
  have h4 : max (0 : Int)
      ((((split 46 u.hostname).filter fun p => !p.isEmpty).length : Int) - 2) = 4 := by
    rw [hhost]
    decide!
  refine ⟨h4, hiff.mpr ?_⟩
  rw [h4]
  decide

/-- Instance of C9 at `https://a.b.c.d.example.com/`. -/
theorem C9_many_subdomains_iff_witness :
    toURL newURLKnown (js "https://a.b.c.d.example.com/") = some parsedDeepHost ∧
    parsedDeepHost.hostname = js "a.b.c.d.example.com" ∧
    max (0 : Int)
      ((((split 46 parsedDeepHost.hostname).filter fun p => !p.isEmpty).length : Int) - 2) = 4 ∧
    js "Many subdomains (possible cloaking)" ∈
      (scoreFindings newURLKnown (js "https://a.b.c.d.example.com/")).reasons :=
  ⟨by decide!, rfl,
   (C9_many_subdomains_iff newURLKnown (js "https://a.b.c.d.example.com/") parsedDeepHost
     (by decide!)).2.2 rfl⟩

/-- C10: the LONG_QUERY and MANY_PARAMS checks fire independently: some
parsed URL has a serialised query of more than 120 code units and at most 8
parameters and reports "Very long query string" without "Many query
parameters"; some parsed URL has more than 8 parameters and a serialised
query of at most 120 code units and reports "Many query parameters" without
"Very long query string"; and on every parsed URL each of the two reasons is
reported iff its own condition holds. -/
theorem C10_query_checks_independent :
    (∃ (url : JsString) (u : URL), toURL newURLKnown url = some u ∧
      120 < u.searchParamsToString.length ∧ u.searchParamsKeys.length ≤ 8 ∧
      js "Very long query string" ∈ (scoreFindings newURLKnown url).reasons ∧
      js "Many query parameters" ∉ (scoreFindings newURLKnown url).reasons) ∧
    (∃ (url : JsString) (u : URL), toURL newURLKnown url = some u ∧
      8 < u.searchParamsKeys.length ∧ u.searchParamsToString.length ≤ 120 ∧
      js "Many query parameters" ∈ (scoreFindings newURLKnown url).reasons ∧
      js "Very long query string" ∉ (scoreFindings newURLKnown url).reasons) ∧
    ∀ (newURL : JsString → Except JsString URL) (url : JsString) (u : URL),
      toURL newURL url = some u →
      (js "Very long query string" ∈ (scoreFindings newURL url).reasons ↔
        120 < u.searchParamsToString.length) ∧
      (js "Many query parameters" ∈ (scoreFindings newURL url).reasons ↔
        8 < u.searchParamsKeys.length) := by
  have hgen : ∀ (newURL : JsString → Except JsString URL) (url : JsString) (u : URL),
      toURL newURL url = some u →
      (js "Very long query string" ∈ (scoreFindings newURL url).reasons ↔
        120 < u.searchParamsToString.length) ∧
      (js "Many query parameters" ∈ (scoreFindings newURL url).reasons ↔
        8 < u.searchParamsKeys.length) := by
    intro newURL url u h
    have hq := reason_mem_iff_fires newURL url u h .LONG_QUERY
    have hp := reason_mem_iff_fires newURL url u h .MANY_PARAMS
    simp only [fires, decide_eq_true_eq, gt_iff_lt] at hq hp
    exact ⟨hq, hp⟩
  have h1 : toURL newURLKnown longQueryUrl = some parsedLongQuery := by decide!
  have h2 : toURL newURLKnown manyParamsUrl = some parsedManyParams := by decide!
  have l1 : parsedLongQuery.searchParamsToString.length = 123 := by decide!
  have k1 : parsedLongQuery.searchParamsKeys.length = 1 := by decide!
  have l2 : parsedManyParams.searchParamsToString.length = 35 := by decide!
  have k2 : parsedManyParams.searchParamsKeys.length = 9 := by decide!
  obtain ⟨q1, p1⟩ := hgen newURLKnown longQueryUrl parsedLongQuery h1
  obtain ⟨q2, p2⟩ := hgen newURLKnown manyParamsUrl parsedManyParams h2
  refine ⟨⟨longQueryUrl, parsedLongQuery, h1, ?_, ?_, ?_, ?_⟩,
    ⟨manyParamsUrl, parsedManyParams, h2, ?_, ?_, ?_, ?_⟩, hgen⟩
  · rw [l1]; decide
  · rw [k1]; decide
  · rw [q1, l1]; decide
  · rw [p1, k1]; decide
  · rw [k2]; decide
  · rw [l2]; decide
  · rw [p2, k2]; decide
  · rw [q2, l2]; decide

/-- Instance of the general part of C10 at the URL with nine short
parameters. -/
theorem C10_query_checks_independent_witness :
    toURL newURLKnown manyParamsUrl = some parsedManyParams ∧
    (js "Very long query string" ∈ (scoreFindings newURLKnown manyParamsUrl).reasons ↔
      120 < parsedManyParams.searchParamsToString.length) ∧
    (js "Many query parameters" ∈ (scoreFindings newURLKnown manyParamsUrl).reasons ↔
      8 < parsedManyParams.searchParamsKeys.length) :=
  ⟨by decide!,
   C10_query_checks_independent.2.2 newURLKnown manyParamsUrl parsedManyParams (by decide!)⟩

/-! ## The edit distance as a minimum number of edits -/

theorem lev_symm (a b : List Nat) : lev a b = lev b a := by
  induction a generalizing b with
  | nil => rw [lev_nil_left, lev_nil_right]
  | cons x a iha =>
    induction b with
    | nil => rw [lev_nil_left, lev_nil_right]
    | cons y b ihb =>
      rw [lev_cons_cons, lev_cons_cons, ihb, iha (y :: b), iha b]
      have hxy : (if x = y then 0 else 1) = (if y = x then (0 : Nat) else 1) := by
        by_cases h : x = y
        · simp [h]
        · simp [h, Ne.symm h]
      rw [hxy, min_comm (lev b (x :: a) + 1)]

theorem lev_eq_zero (a b : List Nat) : lev a b = 0 ↔ a = b := by
  constructor
  · induction a generalizing b with
    | nil =>
      intro h
      rw [lev_nil_left] at h
      exact (List.length_eq_zero.mp h).symm
    | cons x a iha =>
      cases b with
      | nil =>
        intro h
        rw [lev_nil_right] at h
        exact absurd h (by simp)
      | cons y b =>
        intro h
        rw [lev_cons_cons] at h
        by_cases hxy : x = y
        · simp only [hxy, if_true, add_zero] at h
          have h0 : lev a b = 0 := by omega
          rw [hxy, iha b h0]
        · simp only [hxy, if_false] at h
          omega
  · intro h
    rw [h]
    exact lev_self b

theorem lev_cons_right_le (a c : List Nat) (z : Nat) : lev a (z :: c) ≤ lev a c + 1 := by
  cases a with
  | nil => simp [lev_nil_left]
  | cons x a =>
    rw [lev_cons_cons]
    exact le_trans (min_le_left _ _) (min_le_left _ _)

theorem lev_cons_left_le (a c : List Nat) (x : Nat) : lev (x :: a) c ≤ lev a c + 1 := by
  cases c with
  | nil => simp [lev_nil_right]
  | cons z c =>
    rw [lev_cons_cons]
    exact le_trans (min_le_left _ _) (min_le_right _ _)

theorem lev_le_cons_left (a c : List Nat) (d : Nat) : lev a c ≤ lev (d :: a) c + 1 := by
  induction c with
  | nil =>
    simp only [lev_nil_right, List.length_cons]
    omega
  | cons z c ih =>
    have h1 := lev_cons_right_le a c z
    rw [lev_cons_cons]
    generalize (if d = z then 0 else 1) = k
    omega

theorem lev_substitute_head (y c : List Nat) (c0 d0 : Nat) :
    lev (c0 :: y) c ≤ lev (d0 :: y) c + 1 := by
  induction c with
  | nil => simp [lev_nil_right]
  | cons z c ih =>
    rw [lev_cons_cons, lev_cons_cons]
    have h3 : (if c0 = z then 0 else 1) ≤ (if d0 = z then (0 : Nat) else 1) + 1 := by
      split <;> split <;> omega
    omega

theorem lev_cons_mono (u v : List Nat) (e : Nat) (h : ∀ c, lev u c ≤ lev v c + 1) (c : List Nat) :
    lev (e :: u) c ≤ lev (e :: v) c + 1 := by
  induction c with
  | nil =>
    have h0 := h []
    simp only [lev_nil_right, List.length_cons] at h0 ⊢
    omega
  | cons z c ih =>
    rw [lev_cons_cons, lev_cons_cons]
    have h1 := h (z :: c)
    have h2 := h c
    omega

theorem lev_append_mono (p u v : List Nat) (h : ∀ c, lev u c ≤ lev v c + 1) (c : List Nat) :
    lev (p ++ u) c ≤ lev (p ++ v) c + 1 := by
  induction p generalizing c with
  | nil => exact h c
  | cons e p ih => exact lev_cons_mono (p ++ u) (p ++ v) e ih c

theorem lev_le_of_step (a b : List Nat) (h : EditStep a b) (c : List Nat) :
    lev a c ≤ lev b c + 1 := by
  cases h with
  | substitute x y c0 d0 =>
    exact lev_append_mono x _ _ (fun c => lev_substitute_head y c c0 d0) c
  | insert x y d0 =>
    exact lev_append_mono x _ _ (fun c => lev_le_cons_left y c d0) c
  | delete x y c0 =>
    exact lev_append_mono x _ _ (fun c => lev_cons_left_le y c c0) c

theorem lev_le_of_chain (a b : List Nat) (n : Nat) (h : EditChain a b n) : lev a b ≤ n := by
  induction h with
  | done a => rw [lev_self]
  | step hs _ ih => exact le_trans (lev_le_of_step _ _ hs _) (Nat.succ_le_succ ih)

theorem editStep_cons (x : Nat) (a b : List Nat) (h : EditStep a b) :
    EditStep (x :: a) (x :: b) := by
  cases h with
  | substitute p q c d => exact EditStep.substitute (x :: p) q c d
  | insert p q d => exact EditStep.insert (x :: p) q d
  | delete p q c => exact EditStep.delete (x :: p) q c

theorem editChain_cons (x : Nat) (a b : List Nat) (n : Nat) (h : EditChain a b n) :
    EditChain (x :: a) (x :: b) n := by
  induction h with
  | done a => exact EditChain.done _
  | step hs _ ih => exact EditChain.step (editStep_cons x _ _ hs) ih

theorem editChain_insert_all (b : List Nat) : EditChain [] b b.length := by
  induction b with
  | nil => exact EditChain.done _
  | cons y b ih =>
    exact EditChain.step (EditStep.insert [] [] y) (editChain_cons y _ _ _ ih)

theorem editChain_delete_all (a : List Nat) : EditChain a [] a.length := by
  induction a with
  | nil => exact EditChain.done _
  | cons x a ih => exact EditChain.step (EditStep.delete [] a x) ih

theorem editChain_lev (a b : List Nat) : EditChain a b (lev a b) := by
  induction a generalizing b with
  | nil =>
    rw [lev_nil_left]
    exact editChain_insert_all b
  | cons x a iha =>
    induction b with
    | nil =>
      rw [lev_nil_right]
      exact editChain_delete_all (x :: a)
    | cons y b ihb =>
      rw [lev_cons_cons]
      rcases min_choice (min (lev (x :: a) b + 1) (lev a (y :: b) + 1))
          (lev a b + if x = y then 0 else 1) with h | h
      · rw [h]
        rcases min_choice (lev (x :: a) b + 1) (lev a (y :: b) + 1) with h' | h'
        · rw [h']
          exact EditChain.step (EditStep.insert [] (x :: a) y) (editChain_cons y _ _ _ ihb)
        · rw [h']
          exact EditChain.step (EditStep.delete [] a x) (iha (y :: b))
      · rw [h]
        by_cases hxy : x = y
        · simp only [hxy, if_true, add_zero]
          exact editChain_cons y _ _ _ (iha b)
        · simp only [hxy, if_false]
          exact EditChain.step (EditStep.substitute [] a x y) (editChain_cons y _ _ _ (iha b))

theorem editStep_reverse (a b : List Nat) (h : EditStep a b) :
    EditStep a.reverse b.reverse := by
  cases h with
  | substitute p q c d =>
    simp only [List.reverse_append, List.reverse_cons, List.append_assoc, List.singleton_append]
    exact EditStep.substitute q.reverse p.reverse c d
  | insert p q d =>
    simp only [List.reverse_append, List.reverse_cons, List.append_assoc, List.singleton_append]
    exact EditStep.insert q.reverse p.reverse d
  | delete p q c =>
    simp only [List.reverse_append, List.reverse_cons, List.append_assoc, List.singleton_append]
    exact EditStep.delete q.reverse p.reverse c

theorem editChain_reverse (a b : List Nat) (n : Nat) (h : EditChain a b n) :
    EditChain a.reverse b.reverse n := by
  induction h with
  | done a => exact EditChain.done _
  | step hs _ ih => exact EditChain.step (editStep_reverse _ _ hs) ih

theorem lev_reverse_le (a b : List Nat) : lev a.reverse b.reverse ≤ lev a b :=
  lev_le_of_chain _ _ _ (editChain_reverse a b _ (editChain_lev a b))

theorem lev_reverse (a b : List Nat) : lev a.reverse b.reverse = lev a b := by
  apply le_antisymm (lev_reverse_le a b)
  have h := lev_reverse_le a.reverse b.reverse
  rwa [List.reverse_reverse, List.reverse_reverse] at h

theorem dist_eq_lev_forward (a b : JsString) : dist a b = lev a b := by
  rw [dist_eq_lev, lev_reverse]

theorem editStep_iff (a b : JsString) :
    EditStep a b ↔
      (∃ (x y : JsString) (c d : Nat), a = x ++ c :: y ∧ b = x ++ d :: y) ∨
      (∃ (x y : JsString) (d : Nat), a = x ++ y ∧ b = x ++ d :: y) ∨
      (∃ (x y : JsString) (c : Nat), a = x ++ c :: y ∧ b = x ++ y) := by
  constructor
  · intro h
    cases h with
    | substitute x y c d => exact Or.inl ⟨x, y, c, d, rfl, rfl⟩
    | insert x y d => exact Or.inr (Or.inl ⟨x, y, d, rfl, rfl⟩)
    | delete x y c => exact Or.inr (Or.inr ⟨x, y, c, rfl, rfl⟩)
  · rintro (⟨x, y, c, d, rfl, rfl⟩ | ⟨x, y, d, rfl, rfl⟩ | ⟨x, y, c, rfl, rfl⟩)
    · exact EditStep.substitute x y c d
    · exact EditStep.insert x y d
    · exact EditStep.delete x y c

theorem editChain_zero (a b : JsString) (h : EditChain a b 0) : a = b := by
  cases h
  rfl

theorem editChain_one (a b : JsString) (h : EditChain a b 1) : EditStep a b := by
  cases h with
  | step hs hc =>
    cases hc
    exact hs

theorem dist_le_one_iff (a b : JsString) : dist a b ≤ 1 ↔ a = b ∨ EditStep a b := by
  rw [dist_eq_lev_forward]
  constructor
  · intro h
    have hc := editChain_lev a b
    have h01 : lev a b = 0 ∨ lev a b = 1 := by omega
    rcases h01 with h0 | h1
    · rw [h0] at hc
      exact Or.inl (editChain_zero a b hc)
    · rw [h1] at hc
      exact Or.inr (editChain_one a b hc)
  · rintro (rfl | hs)
    · rw [lev_self]
      exact Nat.zero_le 1
    · exact lev_le_of_chain a b 1 (EditChain.step hs (EditChain.done b))

theorem dist_self (a : JsString) : dist a a = 0 := by
  rw [dist_eq_lev_forward, lev_self]

/-- C11: for all strings `a` and `b`, `dist(a, b)` is the Levenshtein distance
of their sequences of code units: it is the value of the recursive definition
`lev`, some sequence of `dist(a, b)` single-character insertions, deletions
and substitutions transforms `a` into `b`, and no shorter sequence does. -/
theorem C11_dist_is_levenshtein (a b : JsString) :
    dist a b = lev a b ∧
    EditChain a b (dist a b) ∧
    ∀ n : Nat, EditChain a b n → dist a b ≤ n := by
  rw [dist_eq_lev_forward]
  exact ⟨rfl, editChain_lev a b, fun n h => lev_le_of_chain a b n h⟩

/-- C14: for all strings `a` and `b`, `dist(a, b) <= 1` iff `a = b` or `b` is
`a` with one code unit substituted, or with one inserted, or with one
deleted. -/
theorem C14_distance_one_is_single_edit (a b : JsString) :
    dist a b ≤ 1 ↔
      a = b ∨
      (∃ (x y : JsString) (c d : Nat), a = x ++ c :: y ∧ b = x ++ d :: y) ∨
      (∃ (x y : JsString) (d : Nat), a = x ++ y ∧ b = x ++ d :: y) ∨
      (∃ (x y : JsString) (c : Nat), a = x ++ c :: y ∧ b = x ++ y) := by
  rw [dist_le_one_iff, editStep_iff]

theorem looksLikeLoopDistOnly_of_mem (target : JsString) (l : List JsString)
    (h : target ∈ l) : looksLikeLoopDistOnly target l = true := by
  induction l with
  | nil => exact absurd h (List.not_mem_nil _)
  | cons good rest ih =>
    rw [looksLikeLoopDistOnly]
    by_cases hd : dist target good ≤ 1
    · rw [if_pos hd]
    · rw [if_neg hd]
      rcases List.mem_cons.mp h with rfl | hm
      · rw [dist_self] at hd
        exact absurd (Nat.zero_le 1) hd
      · exact ih hm

/-- C20: for all strings `a` and `b`, `dist(a, b) = 0` iff `a = b`, and
`dist(a, b) = dist(b, a)`; so an entry of a brand list passes the distance
test against itself, the loop of `looksLike` without its exact-match test
flags every entry of every list, and with the test it flags no entry of
`HIGH_VALUE_BRANDS`. -/
theorem C20_dist_zero_and_symmetric (a b : JsString) :
    (dist a b = 0 ↔ a = b) ∧
    dist a b = dist b a ∧
    dist a a ≤ 1 ∧
    (∀ l : List JsString, a ∈ l → looksLikeLoopDistOnly a l = true) ∧
    (a ∈ HIGH_VALUE_BRANDS → looksLikeLoop a HIGH_VALUE_BRANDS = false) := by
  refine ⟨?_, ?_, ?_, fun l h => looksLikeLoopDistOnly_of_mem a l h,
    fun h => looksLikeLoop_brand a h⟩
  · rw [dist_eq_lev_forward]
    exact lev_eq_zero a b
  · rw [dist_eq_lev_forward, dist_eq_lev_forward]
    exact lev_symm a b
  · rw [dist_self]
    exact Nat.zero_le 1

/-! ## The loop of `looksLike` -/

theorem looksLikeLoop_eq_find (target : JsString) (l : List JsString) :
    looksLikeLoop target l =
      match l.find? (fun g => decide (dist target g ≤ 1)) with
      | none => false
      | some b => decide (b ≠ target) := by
  induction l with
  | nil => rfl
  | cons good rest ih =>
    rw [looksLikeLoop, List.find?_cons]
    by_cases he : target = good
    · subst he
      have hd : decide (dist target target ≤ 1) = true := by
        rw [dist_self]
        rfl
      rw [if_pos rfl, hd]
      simp
    · by_cases hd : dist target good ≤ 1
      · simp [he, hd, Ne.symm he]
      · simp only [he, hd, if_false, decide_False]
        exact ih

theorem looksLikeLoop_append_far (target : JsString) (pre rest : List JsString)
    (hpre : ∀ g ∈ pre, ¬ dist target g ≤ 1) :
    looksLikeLoop target (pre ++ rest) = looksLikeLoop target rest := by
  induction pre with
  | nil => rfl
  | cons good pre ih =>
    have hd : ¬ dist target good ≤ 1 := hpre good (List.mem_cons_self _ _)
    have he : target ≠ good := by
      intro he
      apply hd
      rw [he, dist_self]
      exact Nat.zero_le 1
    rw [List.cons_append, looksLikeLoop, if_neg he, if_neg hd]
    exact ih fun g hg => hpre g (List.mem_cons_of_mem _ hg)

theorem looksLikeLoop_head_near (target good : JsString) (rest : List JsString)
    (hd : dist target good ≤ 1) :
    looksLikeLoop target (good :: rest) = decide (good ≠ target) := by
  rw [looksLikeLoop]
  by_cases he : target = good
  · simp [he]
  · simp [he, hd, Ne.symm he]

theorem looksLike_eq_looksLikeWith (target : JsString) (canonicalList : List JsString) :
    looksLike target canonicalList = looksLikeWith toLowerCase target canonicalList :=
  rfl

/-- C12: the code breaks the claim on the list `["ab", "ac"]`: the candidate
`"ac"` is its own lowercase form and an entry of the list, yet `looksLike`
returns true, because the entry `"ab"`, at distance 1, comes first and the
loop returns there. -/
theorem C12_exact_match_flagged :
    toLowerCase (js "ac") = js "ac" ∧
    js "ac" ∈ [js "ab", js "ac"] ∧
    dist (js "ac") (js "ab") = 1 ∧
    looksLike (js "ac") [js "ab", js "ac"] = true ∧
    looksLikeWith toLowerCase (js "ac") [js "ab", js "ac"] = true := by
  decide!

/-- C13: `looksLike` has first-match-wins semantics, whatever the lowercasing
function of the platform does: with `b` the first entry of the list within
distance 1 of the lowercased candidate, `looksLike` returns true iff there is
such a `b` and it differs from the lowercased candidate, it returns false when
no entry is within distance 1, and the entries after `b` do not change the
result. -/
theorem C13_first_match_wins (lower : JsString → JsString) (t : JsString)
    (l : List JsString) :
    (looksLikeWith lower t l = true ↔
      ∃ b, l.find? (fun g => decide (dist (lower t) g ≤ 1)) = some b ∧ b ≠ lower t) ∧
    (l.find? (fun g => decide (dist (lower t) g ≤ 1)) = none →
      looksLikeWith lower t l = false) ∧
    (∀ (pre post other : List JsString) (b : JsString),
      l = pre ++ b :: post →
      (∀ g ∈ pre, ¬ dist (lower t) g ≤ 1) →
      dist (lower t) b ≤ 1 →
      looksLikeWith lower t l = decide (b ≠ lower t) ∧
      looksLikeWith lower t (pre ++ b :: other) = looksLikeWith lower t l) := by
  refine ⟨?_, ?_, ?_⟩
  · rw [looksLikeWith, looksLikeLoop_eq_find]
    cases hf : l.find? (fun g => decide (dist (lower t) g ≤ 1)) with
    | none => simp
    | some b => simp
  · intro hf
    rw [looksLikeWith, looksLikeLoop_eq_find, hf]
  · intro pre post other b hl hpre hb
    have h1 : ∀ rest : List JsString,
        looksLikeWith lower t (pre ++ b :: rest) = decide (b ≠ lower t) := by
      intro rest
      rw [looksLikeWith, looksLikeLoop_append_far _ pre _ hpre,
        looksLikeLoop_head_near _ b rest hb]
    rw [hl, h1 post, h1 other]
    exact ⟨rfl, rfl⟩

/-- Instance of C13: `Goggle.com`, an ASCII candidate, lowercased to
`goggle.com`, against `["paypal.com", "google.com", "goggle.com"]`: the entry
`google.com` decides, the equal entry after it is not reached. -/
theorem C13_first_match_wins_witness :
    toLowerCase (js "Goggle.com") = js "goggle.com" ∧
    [js "paypal.com", js "google.com", js "goggle.com"] =
      [js "paypal.com"] ++ js "google.com" :: [js "goggle.com"] ∧
    (∀ g ∈ [js "paypal.com"], ¬ dist (toLowerCase (js "Goggle.com")) g ≤ 1) ∧
    dist (toLowerCase (js "Goggle.com")) (js "google.com") ≤ 1 ∧
    looksLikeWith toLowerCase (js "Goggle.com")
        [js "paypal.com", js "google.com", js "goggle.com"] =
      decide (js "google.com" ≠ toLowerCase (js "Goggle.com")) ∧
    looksLikeWith toLowerCase (js "Goggle.com") ([js "paypal.com"] ++ js "google.com" :: []) =
      looksLikeWith toLowerCase (js "Goggle.com")
        [js "paypal.com", js "google.com", js "goggle.com"] :=
  ⟨by decide!, rfl, by decide!, by decide!,
   (C13_first_match_wins toLowerCase (js "Goggle.com")
      [js "paypal.com", js "google.com", js "goggle.com"]).2.2
     [js "paypal.com"] [js "goggle.com"] [] (js "google.com") rfl (by decide!) (by decide!)⟩

/-! ## The test `isIP` -/

theorem mem_reDigit (s r : JsString) :
    r ∈ reDigit s ↔ ∃ c, (48 ≤ c ∧ c ≤ 57) ∧ s = c :: r := by
  cases s with
  | nil => simp [reDigit]
  | cons c t =>
    by_cases hc : 48 ≤ c ∧ c ≤ 57
    · simp only [reDigit, if_pos hc, List.mem_singleton, List.cons.injEq]
      constructor
      · rintro rfl
        exact ⟨c, hc, rfl, rfl⟩
      · rintro ⟨d, -, -, ht⟩
        exact ht.symm
    · simp only [reDigit, if_neg hc, List.not_mem_nil, List.cons.injEq, false_iff]
      rintro ⟨d, hd, rfl, -⟩
      exact hc hd

theorem mem_reChar (x : Nat) (s r : JsString) : r ∈ reChar x s ↔ s = x :: r := by
  cases s with
  | nil => simp [reChar]
  | cons c t =>
    by_cases hc : c = x
    · subst hc
      simp only [reChar, if_true, List.mem_singleton, List.cons.injEq, true_and]
      exact eq_comm
    · simp only [reChar, if_neg hc, List.not_mem_nil, List.cons.injEq, false_iff]
      rintro ⟨h1, -⟩
      exact hc h1

theorem mem_reSeq (p q : Matcher) (s r : JsString) :
    r ∈ reSeq p q s ↔ ∃ m, m ∈ p s ∧ r ∈ q m := by
  simp [reSeq, List.mem_flatMap]

theorem mem_reOpt (p : Matcher) (s r : JsString) : r ∈ reOpt p s ↔ r ∈ p s ∨ r = s := by
  simp [reOpt]

theorem mem_reDigits13 (s r : JsString) :
    r ∈ reDigits13 s ↔ ∃ g, IsDigitGroup g ∧ s = g ++ r := by
  simp only [reDigits13, mem_reSeq, mem_reOpt, mem_reDigit]
  constructor
  · rintro ⟨m, ⟨c1, h1, rfl⟩, hm⟩
    rcases hm with ⟨m2, ⟨c2, h2, rfl⟩, hm2⟩ | rfl
    · rcases hm2 with ⟨c3, h3, rfl⟩ | rfl
      · refine ⟨[c1, c2, c3], ⟨by simp, by simp, ?_⟩, rfl⟩
        intro c hc
        simp only [List.mem_cons, List.mem_singleton, List.not_mem_nil, or_false] at hc
        rcases hc with rfl | rfl | rfl <;> assumption
      · refine ⟨[c1, c2], ⟨by simp, by simp, ?_⟩, rfl⟩
        intro c hc
        simp only [List.mem_cons, List.mem_singleton, List.not_mem_nil, or_false] at hc
        rcases hc with rfl | rfl <;> assumption
    · refine ⟨[c1], ⟨by simp, by simp, ?_⟩, rfl⟩
      intro c hc
      simp only [List.mem_singleton] at hc
      rw [hc]
      exact h1
  · rintro ⟨g, ⟨hlo, hhi, hdig⟩, rfl⟩
    match g, hlo, hhi, hdig with
    | [c1], _, _, hdig =>
      exact ⟨r, ⟨c1, hdig c1 (by simp), rfl⟩, Or.inr rfl⟩
    | [c1, c2], _, _, hdig =>
      exact ⟨c2 :: r, ⟨c1, hdig c1 (by simp), rfl⟩,
        Or.inl ⟨r, ⟨c2, hdig c2 (by simp), rfl⟩, Or.inr rfl⟩⟩
    | [c1, c2, c3], _, _, hdig =>
      exact ⟨c2 :: c3 :: r, ⟨c1, hdig c1 (by simp), rfl⟩,
        Or.inl ⟨c3 :: r, ⟨c2, hdig c2 (by simp), rfl⟩,
          Or.inl ⟨c3, hdig c3 (by simp), rfl⟩⟩⟩
    | [], hlo, _, _ => exact absurd hlo (by simp)
    | _ :: _ :: _ :: _ :: _, _, hhi, _ =>
      simp only [List.length_cons] at hhi
      omega

theorem mem_reDotGroup (s r : JsString) :
    r ∈ reSeq (reChar 46) reDigits13 s ↔ ∃ g, IsDigitGroup g ∧ s = 46 :: (g ++ r) := by
  simp only [mem_reSeq, mem_reChar, mem_reDigits13]
  constructor
  · rintro ⟨m, rfl, g, hg, rfl⟩
    exact ⟨g, hg, rfl⟩
  · rintro ⟨g, hg, rfl⟩
    exact ⟨g ++ r, rfl, g, hg, rfl⟩

theorem isIP_iff (host : JsString) : isIP host = true ↔ IsDottedQuad host := by
  have hany : isIP host = true ↔ [] ∈ reSeq reDigits13 reDotGroups3 host := by
    simp only [isIP, List.any_eq_true, List.isEmpty_iff]
    constructor
    · rintro ⟨x, hx, rfl⟩
      exact hx
    · intro h
      exact ⟨[], h, rfl⟩
  rw [hany, reDotGroups3, mem_reSeq]
  simp only [mem_reSeq (reSeq (reChar 46) reDigits13), mem_reDotGroup, mem_reDigits13]
  constructor
  · rintro ⟨m1, ⟨g1, hg1, rfl⟩, m2, ⟨g2, hg2, rfl⟩, m3, ⟨g3, hg3, rfl⟩, g4, hg4, rfl⟩
    exact ⟨g1, g2, g3, g4, hg1, hg2, hg3, hg4, by simp⟩
  · rintro ⟨g1, g2, g3, g4, hg1, hg2, hg3, hg4, rfl⟩
    exact ⟨_, ⟨g1, hg1, rfl⟩, _, ⟨g2, hg2, rfl⟩, _, ⟨g3, hg3, rfl⟩, g4, hg4, by simp⟩

/-- C16: `isIP(host)` is true iff `host` is exactly four groups of one to
three ASCII decimal digits separated by single dots; no range is checked, so
`999.999.999.999` is accepted, and hosts with three or five groups, a group
of four digits, an empty group or a trailing dot are rejected. -/
theorem C16_isIP_iff_dotted_quad (host : JsString) :
    (isIP host = true ↔
      ∃ g1 g2 g3 g4 : JsString,
        (1 ≤ g1.length ∧ g1.length ≤ 3 ∧ ∀ c ∈ g1, 48 ≤ c ∧ c ≤ 57) ∧
        (1 ≤ g2.length ∧ g2.length ≤ 3 ∧ ∀ c ∈ g2, 48 ≤ c ∧ c ≤ 57) ∧
        (1 ≤ g3.length ∧ g3.length ≤ 3 ∧ ∀ c ∈ g3, 48 ≤ c ∧ c ≤ 57) ∧
        (1 ≤ g4.length ∧ g4.length ≤ 3 ∧ ∀ c ∈ g4, 48 ≤ c ∧ c ≤ 57) ∧
        host = g1 ++ 46 :: (g2 ++ 46 :: (g3 ++ 46 :: g4))) ∧
    isIP (js "999.999.999.999") = true ∧
    isIP (js "1.2.3") = false ∧
    isIP (js "1.2.3.4.5") = false ∧
    isIP (js "1234.5.6.7") = false ∧
    isIP (js "1..2.3") = false ∧
    isIP (js "1.2.3.4.") = false := by
  refine ⟨isIP_iff host, ?_, ?_, ?_, ?_, ?_, ?_⟩ <;> decide!

theorem split_no_sep (sep : Nat) (g : JsString) (h : sep ∉ g) : split sep g = [g] := by
  induction g with
  | nil => rfl
  | cons c g ih =>
    have hc : c ≠ sep := fun he => h (he ▸ List.mem_cons_self _ _)
    have hg : sep ∉ g := fun hm => h (List.mem_cons_of_mem _ hm)
    rw [split, if_neg hc, ih hg]

theorem split_append_sep (sep : Nat) (g rest : JsString) (h : sep ∉ g) :
    split sep (g ++ sep :: rest) = g :: split sep rest := by
  induction g with
  | nil => simp [split]
  | cons c g ih =>
    have hc : c ≠ sep := fun he => h (he ▸ List.mem_cons_self _ _)
    have hg : sep ∉ g := fun hm => h (List.mem_cons_of_mem _ hm)
    rw [List.cons_append, split, if_neg hc, ih hg]

theorem IsDigitGroup.no_dot (g : JsString) (h : IsDigitGroup g) : 46 ∉ g := by
  intro hm
  have := h.2.2 46 hm
  omega

theorem IsDigitGroup.nonempty (g : JsString) (h : IsDigitGroup g) : g.isEmpty = false := by
  cases g with
  | nil => exact absurd h.1 (by simp)
  | cons c g => rfl

theorem hostParts_of_isIP (host : JsString) (h : isIP host = true) :
    (hostParts host).length = 4 := by
  obtain ⟨g1, g2, g3, g4, h1, h2, h3, h4, rfl⟩ := (isIP_iff host).mp h
  rw [hostParts, split_append_sep 46 g1 _ h1.no_dot, split_append_sep 46 g2 _ h2.no_dot,
    split_append_sep 46 g3 _ h3.no_dot, split_no_sep 46 g4 h4.no_dot]
  simp [List.filter_cons, h1.nonempty, h2.nonempty, h3.nonempty, h4.nonempty]

theorem fired_sum_ge (u : URL) (l : List Detector) (hsub : List.Sublist l allDetectors)
    (hall : ∀ d ∈ l, fires u d = true) :
    (l.map WEIGHTS).sum ≤ ((fired u).map WEIGHTS).sum := by
  have hl : l.filter (fires u) = l := List.filter_eq_self.mpr hall
  have hs : List.Sublist l (fired u) := by
    rw [← hl]
    exact hsub.filter (fires u)
  apply List.Sublist.sum_le_sum (hs.map WEIGHTS)
  intro w hw
  obtain ⟨d, -, rfl⟩ := List.mem_map.mp hw
  exact WEIGHTS_nonneg d

/-- C17: the IP-literal and subdomain-depth checks are not independent in
effect: for every successfully parsed URL whose hostname satisfies `isIP`,
the hostname has exactly four non-empty dot-separated segments, both the IP
reason and the subdomain reason are reported, the score is at least 60, and
it is exactly 100 when the protocol is not `https:`. -/
theorem C17_ip_host_has_many_subdomains (newURL : JsString → Except JsString URL)
    (url : JsString) (u : URL) (h : toURL newURL url = some u)
    (hip : isIP u.hostname = true) :
    ((split 46 u.hostname).filter fun p => !p.isEmpty).length = 4 ∧
    js "IP address used instead of domain" ∈ (scoreFindings newURL url).reasons ∧
    js "Many subdomains (possible cloaking)" ∈ (scoreFindings newURL url).reasons ∧
    60 ≤ (scoreFindings newURL url).score ∧
    (u.protocol ≠ js "https:" → (scoreFindings newURL url).score = 100) := by
  have h4 : (hostParts u.hostname).length = 4 := hostParts_of_isIP u.hostname hip
  have hfi : fires u .IP_HOST = true := hip
  have hfm : fires u .MANY_SUBDOMAINS = true := by
    simp only [fires, subCount, h4, decide_eq_true_eq]
    decide
  refine ⟨h4, (reason_mem_iff_fires newURL url u h .IP_HOST).mpr hfi,
    (reason_mem_iff_fires newURL url u h .MANY_SUBDOMAINS).mpr hfm, ?_, ?_⟩
  · rw [scoreFindings_some newURL url u h]
    have hge := fired_sum_ge u [.IP_HOST, .MANY_SUBDOMAINS] (by decide) (by
      intro d hd
      simp only [List.mem_cons, List.mem_singleton, List.not_mem_nil, or_false] at hd
      rcases hd with rfl | rfl <;> assumption)
    have hw : ([Detector.IP_HOST, Detector.MANY_SUBDOMAINS].map WEIGHTS).sum = 60 := rfl
    rw [hw] at hge
    exact le_max_of_le_right (le_min (by decide) hge)
  · intro hp
    have hfn : fires u .NOT_HTTPS = true := by
      simp only [fires, bne_iff_ne, ne_eq]
      exact hp
    rw [scoreFindings_some newURL url u h]
    have hge := fired_sum_ge u [.NOT_HTTPS, .IP_HOST, .MANY_SUBDOMAINS] (by decide) (by
      intro d hd
      simp only [List.mem_cons, List.mem_singleton, List.not_mem_nil, or_false] at hd
      rcases hd with rfl | rfl | rfl <;> assumption)
    have hw : ([Detector.NOT_HTTPS, Detector.IP_HOST, Detector.MANY_SUBDOMAINS].map
        WEIGHTS).sum = 100 := rfl
    rw [hw] at hge
    show max 0 (min 100 ((fired u).map WEIGHTS).sum) = 100
    rw [min_eq_left hge]
    rfl

/-- Instance of C17 at `http://192.168.1.1/login`. -/
theorem C17_ip_host_has_many_subdomains_witness :
    toURL newURLKnown (js "http://192.168.1.1/login") = some parsedIpLogin ∧
    isIP parsedIpLogin.hostname = true ∧
    parsedIpLogin.protocol ≠ js "https:" ∧
    ((split 46 parsedIpLogin.hostname).filter fun p => !p.isEmpty).length = 4 ∧
    js "IP address used instead of domain" ∈
      (scoreFindings newURLKnown (js "http://192.168.1.1/login")).reasons ∧
    js "Many subdomains (possible cloaking)" ∈
      (scoreFindings newURLKnown (js "http://192.168.1.1/login")).reasons ∧
    60 ≤ (scoreFindings newURLKnown (js "http://192.168.1.1/login")).score ∧
    (parsedIpLogin.protocol ≠ js "https:" →
      (scoreFindings newURLKnown (js "http://192.168.1.1/login")).score = 100) :=
  ⟨by decide!, by decide!, by decide!,
   C17_ip_host_has_many_subdomains newURLKnown (js "http://192.168.1.1/login") parsedIpLogin
     (by decide!) (by decide!)⟩

/-! ## Bounds on the score -/

theorem sum_map_filter (p : Detector → Bool) (l : List Detector) :
    ((l.filter p).map WEIGHTS).sum = (l.map fun d => if p d = true then WEIGHTS d else 0).sum := by
  induction l with
  | nil => rfl
  | cons d l ih =>
    cases hd : p d <;> simp [List.filter_cons, hd, ih]

theorem fired_sum_eq (u : URL) :
    ((fired u).map WEIGHTS).sum =
      (if fires u .NOT_HTTPS = true then 40 else 0) +
      ((if fires u .IP_HOST = true then 45 else 0) +
      ((if fires u .PUNYCODE = true then 40 else 0) +
      ((if fires u .SHORTENER = true then 20 else 0) +
      ((if fires u .MANY_SUBDOMAINS = true then 15 else 0) +
      ((if fires u .UNUSUAL_PORT = true then 15 else 0) +
      ((if fires u .LONG_PATH = true then 10 else 0) +
      ((if fires u .MANY_PARAMS = true then 10 else 0) +
      ((if fires u .LONG_QUERY = true then 8 else 0) +
      ((if fires u .LOOKS_LIKE_BRAND = true then 60 else 0) + 0))))))))) := by
  rw [fired, sum_map_filter]
  rfl

theorem other_fired_sum_eq (u : URL) :
    (((fired u).filter fun d => decide (d ≠ Detector.UNUSUAL_PORT)).map WEIGHTS).sum =
      (if fires u .NOT_HTTPS = true then 40 else 0) +
      ((if fires u .IP_HOST = true then 45 else 0) +
      ((if fires u .PUNYCODE = true then 40 else 0) +
      ((if fires u .SHORTENER = true then 20 else 0) +
      ((if fires u .MANY_SUBDOMAINS = true then 15 else 0) +
      ((if fires u .LONG_PATH = true then 10 else 0) +
      ((if fires u .MANY_PARAMS = true then 10 else 0) +
      ((if fires u .LONG_QUERY = true then 8 else 0) +
      ((if fires u .LOOKS_LIKE_BRAND = true then 60 else 0) + 0)))))))) := by
  rw [fired, List.filter_filter, sum_map_filter]
  simp [allDetectors, WEIGHTS]

theorem level_of_some (newURL : JsString → Except JsString URL) (url : JsString) (u : URL)
    (h : toURL newURL url = some u) :
    (scoreFindings newURL url).level =
      if 75 ≤ (scoreFindings newURL url).score then js "High"
      else if 40 ≤ (scoreFindings newURL url).score then js "Medium"
      else js "Low" := by
  rw [scoreFindings_some newURL url u h]
  rfl

theorem score_ge_of_high (newURL : JsString → Except JsString URL) (url : JsString) (u : URL)
    (h : toURL newURL url = some u) (hl : (scoreFindings newURL url).level = js "High") :
    75 ≤ (scoreFindings newURL url).score := by
  obtain ⟨hHM, hHL, -⟩ := levels_distinct
  rw [level_of_some newURL url u h] at hl
  by_contra hc
  rw [if_neg hc] at hl
  split at hl
  · exact hHM hl.symm
  · exact hHL hl.symm

theorem score_lt_of_low (newURL : JsString → Except JsString URL) (url : JsString) (u : URL)
    (h : toURL newURL url = some u) (hl : (scoreFindings newURL url).level = js "Low") :
    (scoreFindings newURL url).score < 40 := by
  obtain ⟨-, hHL, hML⟩ := levels_distinct
  rw [level_of_some newURL url u h] at hl
  by_contra hc
  split at hl
  · exact hHL hl
  · rw [if_pos (not_lt.mp hc)] at hl
    exact hML hl

theorem level_of_score_ge (newURL : JsString → Except JsString URL) (url : JsString) (u : URL)
    (h : toURL newURL url = some u) (hs : 40 ≤ (scoreFindings newURL url).score) :
    (scoreFindings newURL url).level = js "Medium" ∨
      (scoreFindings newURL url).level = js "High" := by
  rw [level_of_some newURL url u h]
  by_cases h75 : 75 ≤ (scoreFindings newURL url).score
  · rw [if_pos h75]
    exact Or.inr rfl
  · rw [if_neg h75, if_pos hs]
    exact Or.inl rfl

theorem score_ge_of_fires (newURL : JsString → Except JsString URL) (url : JsString) (u : URL)
    (h : toURL newURL url = some u) (d : Detector) (hd : fires u d = true) :
    min 100 (WEIGHTS d) ≤ (scoreFindings newURL url).score := by
  rw [scoreFindings_some newURL url u h]
  have hle : WEIGHTS d ≤ ((fired u).map WEIGHTS).sum := by
    apply List.single_le_sum
    · intro w hw
      obtain ⟨e, -, rfl⟩ := List.mem_map.mp hw
      exact WEIGHTS_nonneg e
    · exact List.mem_map.mpr ⟨d, (mem_fired u d).mpr hd, rfl⟩
  exact le_max_of_le_right (min_le_min le_rfl hle)

theorem shortener_two_labels :
    ∀ host ∈ shortenerList, (hostParts host).length = 2 := by
  decide!

theorem shortener_excludes_subdomains (u : URL) (hs : fires u .SHORTENER = true) :
    fires u .MANY_SUBDOMAINS = false := by
  have hmem : u.hostname ∈ shortenerList := by
    simpa [fires, isShortener] using hs
  have h2 := shortener_two_labels u.hostname hmem
  simp only [fires, subCount, h2, decide_eq_false_iff_not]
  decide

theorem weak_signals_bound (bS bM bP bL bQ bR : Bool) (hex : bS = true → bM = false) :
    (if bS = true then (20 : Int) else 0) + ((if bM = true then 15 else 0) +
      ((if bP = true then 15 else 0) + ((if bL = true then 10 else 0) +
      ((if bQ = true then 10 else 0) + ((if bR = true then 8 else 0) + 0))))) ≤ 63 := by
  cases bS <;> cases bM <;> cases bP <;> cases bL <;> cases bQ <;> cases bR <;>
    first
    | decide
    | exact absurd (hex rfl) (by decide)

theorem score_le_of_weak (newURL : JsString → Except JsString URL) (url : JsString) (u : URL)
    (h : toURL newURL url = some u)
    (h1 : fires u .NOT_HTTPS = false) (h2 : fires u .IP_HOST = false)
    (h3 : fires u .PUNYCODE = false) (h4 : fires u .LOOKS_LIKE_BRAND = false) :
    (scoreFindings newURL url).score ≤ 63 := by
  rw [scoreFindings_some newURL url u h]
  have hb := weak_signals_bound (fires u .SHORTENER) (fires u .MANY_SUBDOMAINS)
    (fires u .UNUSUAL_PORT) (fires u .LONG_PATH) (fires u .MANY_PARAMS) (fires u .LONG_QUERY)
    (shortener_excludes_subdomains u)
  have hs := fired_sum_eq u
  rw [h1, h2, h3, h4] at hs
  simp only [Bool.false_eq_true, if_false, zero_add, add_zero] at hs hb
  show max 0 (min 100 ((fired u).map WEIGHTS).sum) ≤ 63
  rw [hs]
  exact max_le (by decide) (le_trans (min_le_right _ _) hb)

theorem unusualPort_iff (u : URL) :
    unusualPort u = true ↔
      u.port ≠ [] ∧ ¬ ((u.protocol = js "https:" ∧ u.port = js "443") ∨
        (u.protocol = js "http:" ∧ u.port = js "80")) := by
  simp only [unusualPort, Bool.and_eq_true, Bool.not_eq_true', Bool.or_eq_false_iff,
    Bool.and_eq_false_imp, beq_iff_eq, List.isEmpty_eq_false, ne_eq, not_or, not_and]
  constructor
  · rintro ⟨h1, h2, h3⟩
    refine ⟨h1, fun hp => ?_, fun hp => ?_⟩
    · simpa using h2 hp
    · simpa using h3 hp
  · rintro ⟨h1, h2, h3⟩
    refine ⟨h1, fun hp => ?_, fun hp => ?_⟩
    · simpa using h2 hp
    · simpa using h3 hp

theorem reasonOf_eq_port (port p : JsString) (d : Detector)
    (h : reasonOf port d = js "Unusual port (" ++ p ++ js ")") : d = .UNUSUAL_PORT := by
  have h11 := congrArg (List.take 11) h
  have hp : js "Unusual port (" ++ p ++ js ")" = reasonOf p .UNUSUAL_PORT := rfl
  rw [hp, reasonOf_take port d, reasonOf_take p .UNUSUAL_PORT] at h11
  revert h11
  cases d <;> decide!

/-! ## Strong and weak signals -/

/-- C18: with the built-in weights and shortener list, a level of "High"
needs a strong signal: for every successfully parsed URL rated "High", the
reason of NOT_HTTPS, IP_HOST, PUNYCODE or LOOKS_LIKE_BRAND is reported; an
`https` URL whose host is not an IP literal, not non-ASCII or punycode and
not a brand look-alike scores at most 63, because every built-in shortener
host has exactly two labels, so that the shortener and subdomain reasons are
never both reported. -/
theorem C18_high_needs_strong_signal (newURL : JsString → Except JsString URL)
    (url : JsString) (u : URL) (h : toURL newURL url = some u) :
    ((scoreFindings newURL url).level = js "High" →
      js "Not HTTPS (connection not encrypted)" ∈ (scoreFindings newURL url).reasons ∨
      js "IP address used instead of domain" ∈ (scoreFindings newURL url).reasons ∨
      js "Non-ASCII or punycode in domain (possible homograph)" ∈
        (scoreFindings newURL url).reasons ∨
      js "Domain looks like a high-value brand (possible typosquatting)" ∈
        (scoreFindings newURL url).reasons) ∧
    (u.protocol = js "https:" → isIP u.hostname = false → hasUnicode u.hostname = false →
      looksLike (topDomain (hostParts u.hostname)) HIGH_VALUE_BRANDS = false →
      (scoreFindings newURL url).score ≤ 63) ∧
    (∀ host ∈ shortenerList, ((split 46 host).filter fun p => !p.isEmpty).length = 2) ∧
    ¬ (js "URL shortener (destination hidden)" ∈ (scoreFindings newURL url).reasons ∧
       js "Many subdomains (possible cloaking)" ∈ (scoreFindings newURL url).reasons) := by
  refine ⟨?_, ?_, shortener_two_labels, ?_⟩
  · intro hl
    have h75 := score_ge_of_high newURL url u h hl
    by_contra hnone
    simp only [not_or] at hnone
    obtain ⟨n1, n2, n3, n4⟩ := hnone
    have f1 : fires u .NOT_HTTPS = false :=
      Bool.eq_false_iff.mpr fun hf => n1 ((reason_mem_iff_fires newURL url u h _).mpr hf)
    have f2 : fires u .IP_HOST = false :=
      Bool.eq_false_iff.mpr fun hf => n2 ((reason_mem_iff_fires newURL url u h _).mpr hf)
    have f3 : fires u .PUNYCODE = false :=
      Bool.eq_false_iff.mpr fun hf => n3 ((reason_mem_iff_fires newURL url u h _).mpr hf)
    have f4 : fires u .LOOKS_LIKE_BRAND = false :=
      Bool.eq_false_iff.mpr fun hf => n4 ((reason_mem_iff_fires newURL url u h _).mpr hf)
    have h63 := score_le_of_weak newURL url u h f1 f2 f3 f4
    omega
  · intro hp hi hu hb
    have f1 : fires u .NOT_HTTPS = false := by
      simp only [fires, hp, bne_self_eq_false]
    exact score_le_of_weak newURL url u h f1 hi hu hb
  · rintro ⟨hs, hm⟩
    have fs := (reason_mem_iff_fires newURL url u h .SHORTENER).mp hs
    have fm := (reason_mem_iff_fires newURL url u h .MANY_SUBDOMAINS).mp hm
    rw [shortener_excludes_subdomains u fs] at fm
    exact Bool.false_ne_true fm

/-- Instance of C18 at an `https` URL on `bit.ly` with a port, a long path,
nine parameters and a long query: every weak signal that can fire together
fires, and the score is 63. -/
theorem C18_high_needs_strong_signal_witness :
    toURL newURLKnown weakSignalsUrl = some parsedWeakSignals ∧
    parsedWeakSignals.protocol = js "https:" ∧
    isIP parsedWeakSignals.hostname = false ∧
    hasUnicode parsedWeakSignals.hostname = false ∧
    looksLike (topDomain (hostParts parsedWeakSignals.hostname)) HIGH_VALUE_BRANDS = false ∧
    (scoreFindings newURLKnown weakSignalsUrl).score = 63 ∧
    (scoreFindings newURLKnown weakSignalsUrl).score ≤ 63 :=
  ⟨by decide!, by decide!, by decide!, by decide!, by decide!, by decide!,
   (C18_high_needs_strong_signal newURLKnown weakSignalsUrl parsedWeakSignals
     (by decide!)).2.1 (by decide!) (by decide!) (by decide!) (by decide!)⟩

/-- C19: a level of "Low" excludes every strong signal: for every
successfully parsed URL rated "Low" the protocol is `https:`, the hostname is
not an IP literal, `hasUnicode` is false of it, and the typosquat reason is
absent; every URL whose protocol is not `https:` is rated "Medium" or
"High". -/
theorem C19_low_excludes_strong_signals (newURL : JsString → Except JsString URL)
    (url : JsString) (u : URL) (h : toURL newURL url = some u) :
    ((scoreFindings newURL url).level = js "Low" →
      u.protocol = js "https:" ∧ isIP u.hostname = false ∧ hasUnicode u.hostname = false ∧
      js "Domain looks like a high-value brand (possible typosquatting)" ∉
        (scoreFindings newURL url).reasons) ∧
    (u.protocol ≠ js "https:" →
      (scoreFindings newURL url).level = js "Medium" ∨
      (scoreFindings newURL url).level = js "High") := by
  have hstrong : ∀ d : Detector, 40 ≤ WEIGHTS d → fires u d = true →
      40 ≤ (scoreFindings newURL url).score := by
    intro d hw hd
    exact le_trans (le_min (by decide) hw) (score_ge_of_fires newURL url u h d hd)
  constructor
  · intro hl
    have hlt := score_lt_of_low newURL url u h hl
    have hnot : ∀ d : Detector, 40 ≤ WEIGHTS d → fires u d = false := by
      intro d hw
      apply Bool.eq_false_iff.mpr
      intro hd
      have := hstrong d hw hd
      omega
    refine ⟨?_, hnot .IP_HOST (by decide), hnot .PUNYCODE (by decide), ?_⟩
    · have h1 := hnot .NOT_HTTPS (by decide)
      simpa [fires] using h1
    · intro hm
      have h4 := hnot .LOOKS_LIKE_BRAND (by decide)
      rw [(reason_mem_iff_fires newURL url u h .LOOKS_LIKE_BRAND).mp hm] at h4
      exact Bool.noConfusion h4
  · intro hp
    apply level_of_score_ge newURL url u h
    apply hstrong .NOT_HTTPS (by decide)
    simp only [fires, bne_iff_ne, ne_eq]
    exact hp

/-- Instance of C19 at `https://a.b.c.d.example.com/`, which is rated
"Low". -/
theorem C19_low_excludes_strong_signals_witness :
    toURL newURLKnown (js "https://a.b.c.d.example.com/") = some parsedDeepHost ∧
    (scoreFindings newURLKnown (js "https://a.b.c.d.example.com/")).level = js "Low" ∧
    parsedDeepHost.protocol = js "https:" ∧ isIP parsedDeepHost.hostname = false ∧
    hasUnicode parsedDeepHost.hostname = false ∧
    js "Domain looks like a high-value brand (possible typosquatting)" ∉
      (scoreFindings newURLKnown (js "https://a.b.c.d.example.com/")).reasons :=
  ⟨by decide!, by decide!,
   (C19_low_excludes_strong_signals newURLKnown (js "https://a.b.c.d.example.com/")
     parsedDeepHost (by decide!)).1 (by decide!)⟩

/-! ## The port check -/

theorem port_reason_mem_iff (newURL : JsString → Except JsString URL) (url : JsString)
    (u : URL) (h : toURL newURL url = some u) (p : JsString) :
    js "Unusual port (" ++ p ++ js ")" ∈ (scoreFindings newURL url).reasons ↔
      p = u.port ∧ unusualPort u = true := by
  constructor
  · intro hm
    rw [scoreFindings_some newURL url u h] at hm
    obtain ⟨d, hd, hdp⟩ := List.mem_map.mp hm
    have hup := reasonOf_eq_port u.port p d hdp
    subst hup
    have hfd : unusualPort u = true := (mem_fired u _).mp hd
    refine ⟨?_, hfd⟩
    have hpp : js "Unusual port (" ++ u.port ++ js ")" = js "Unusual port (" ++ p ++ js ")" :=
      hdp
    rw [List.append_assoc, List.append_assoc] at hpp
    exact (List.append_cancel_right (List.append_cancel_left hpp)).symm
  · rintro ⟨rfl, hf⟩
    exact (reason_mem_iff_fires newURL url u h .UNUSUAL_PORT).mpr hf

theorem score_port_split (newURL : JsString → Except JsString URL) (url : JsString)
    (u : URL) (h : toURL newURL url = some u) :
    (scoreFindings newURL url).score =
      min 100 ((if unusualPort u = true then 15 else 0) +
        (((fired u).filter fun d => decide (d ≠ Detector.UNUSUAL_PORT)).map WEIGHTS).sum) := by
  rw [scoreFindings_some newURL url u h]
  have hs := fired_sum_eq u
  have ho := other_fired_sum_eq u
  have hn := fired_sum_nonneg u
  have hfp : fires u .UNUSUAL_PORT = unusualPort u := rfl
  rw [hfp] at hs
  show max 0 (min 100 ((fired u).map WEIGHTS).sum) = _
  rw [max_eq_right (le_min (by decide) hn)]
  congr 1
  rw [hs, ho]
  ring

/-- C15: for every successfully parsed URL with a non-empty port `p`, the
port `0` included, `scoreFindings` adds the 15 of UNUSUAL_PORT and the reason
"Unusual port (p)", unless the protocol is `https:` and `p` is `443`, or the
protocol is `http:` and `p` is `80`; without a port, or with that default
port of its own scheme, no port reason is added, for any port text. So
`https` with port 80, `http` with port 443 and any port on another scheme
are flagged. -/
theorem C15_unusual_port (newURL : JsString → Except JsString URL) (url : JsString)
    (u : URL) (h : toURL newURL url = some u) :
    (u.port ≠ [] →
      ¬ ((u.protocol = js "https:" ∧ u.port = js "443") ∨
         (u.protocol = js "http:" ∧ u.port = js "80")) →
      js "Unusual port (" ++ u.port ++ js ")" ∈ (scoreFindings newURL url).reasons ∧
      (scoreFindings newURL url).score =
        min 100 (WEIGHTS .UNUSUAL_PORT +
          (((fired u).filter fun d => decide (d ≠ Detector.UNUSUAL_PORT)).map WEIGHTS).sum)) ∧
    WEIGHTS .UNUSUAL_PORT = 15 ∧
    ((u.port = [] ∨ (u.protocol = js "https:" ∧ u.port = js "443") ∨
        (u.protocol = js "http:" ∧ u.port = js "80")) →
      (∀ p : JsString,
        js "Unusual port (" ++ p ++ js ")" ∉ (scoreFindings newURL url).reasons) ∧
      (scoreFindings newURL url).score =
        min 100
          (((fired u).filter fun d => decide (d ≠ Detector.UNUSUAL_PORT)).map WEIGHTS).sum) ∧
    (u.port = js "0" →
      js "Unusual port (0)" ∈ (scoreFindings newURL url).reasons) ∧
    (u.protocol = js "https:" → u.port = js "80" →
      js "Unusual port (80)" ∈ (scoreFindings newURL url).reasons) ∧
    (u.protocol = js "http:" → u.port = js "443" →
      js "Unusual port (443)" ∈ (scoreFindings newURL url).reasons) ∧
    (u.protocol ≠ js "https:" → u.protocol ≠ js "http:" → u.port ≠ [] →
      js "Unusual port (" ++ u.port ++ js ")" ∈ (scoreFindings newURL url).reasons) := by
  have hflag : unusualPort u = true →
      js "Unusual port (" ++ u.port ++ js ")" ∈ (scoreFindings newURL url).reasons :=
    fun hf => (port_reason_mem_iff newURL url u h u.port).mpr ⟨rfl, hf⟩
  have hsplit := score_port_split newURL url u h
  refine ⟨?_, rfl, ?_, ?_, ?_, ?_, ?_⟩
  · intro hne hdef
    have hf : unusualPort u = true := (unusualPort_iff u).mpr ⟨hne, hdef⟩
    refine ⟨hflag hf, ?_⟩
    rw [hsplit, if_pos hf]
    rfl
  · intro hc
    have hf : ¬ unusualPort u = true := by
      rw [unusualPort_iff]
      rintro ⟨hne, hdef⟩
      rcases hc with hc | hc
      · exact hne hc
      · exact hdef hc
    refine ⟨fun p hm => hf ((port_reason_mem_iff newURL url u h p).mp hm).2, ?_⟩
    rw [hsplit, if_neg hf, zero_add]
  · intro hp
    have hf : unusualPort u = true := by
      rw [unusualPort_iff, hp]
      refine ⟨by decide!, ?_⟩
      rintro (⟨-, h0⟩ | ⟨-, h0⟩)
      · exact absurd h0 (by decide!)
      · exact absurd h0 (by decide!)
    have := hflag hf
    rw [hp] at this
    exact this
  · intro hs hp
    have hf : unusualPort u = true := by
      rw [unusualPort_iff, hp, hs]
      decide!
    have := hflag hf
    rw [hp] at this
    exact this
  · intro hs hp
    have hf : unusualPort u = true := by
      rw [unusualPort_iff, hp, hs]
      decide!
    have := hflag hf
    rw [hp] at this
    exact this
  · intro h1 h2 hne
    apply hflag
    rw [unusualPort_iff]
    refine ⟨hne, ?_⟩
    rintro (⟨hs, -⟩ | ⟨hs, -⟩)
    · exact h1 hs
    · exact h2 hs

/-- Instance of C15 at `https://example.com:0/`, whose port is `0`. -/
theorem C15_unusual_port_witness :
    toURL newURLKnown (js "https://example.com:0/") = some parsedPortZero ∧
    parsedPortZero.port = js "0" ∧
    js "Unusual port (0)" ∈ (scoreFindings newURLKnown (js "https://example.com:0/")).reasons ∧
    (scoreFindings newURLKnown (js "https://example.com:0/")).score = 15 :=
  ⟨by decide!, rfl,
   (C15_unusual_port newURLKnown (js "https://example.com:0/") parsedPortZero
     (by decide!)).2.2.2.1 rfl,
   by decide!⟩

end LinkChecker
